import Mathlib

/-!
Verification development for the gobo front end: a byte-level lexer
producing a token stream and a stack-driven event-emitting parser.
The definitions below are a shallow embedding of the Rust sources
(src/lex/lexer.rs, src/lex/number_lexer.rs, src/lex/identifier_lexer.rs,
src/lex/string_lexer.rs, src/lex/token.rs, src/lex/tokenized_text.rs,
src/parse/parser.rs).  Bytes are Nat values smaller than 256, buffers are
byte lists, loops are either structural recursion over the unscanned
suffix or fueled recursion; an abort value models a Rust panic or an
out-of-bounds access, and fuel exhaustion models divergence.
Plain debug assertions are compiled out in release builds and are
embedded as no-ops; slice-index panics and arena accesses outside the
initialized range are embedded as aborts.
-/

namespace Gobo

/-- Byte values of an ASCII string, used to write concrete inputs. -/
def str2bytes (s : String) : List Nat := s.data.map Char.toNat

/-- TokenKind from src/lex/token.rs (the closed enumeration, in source order). -/
inductive TokenKind where
  | Error | FileStart | FileEnd | SingleLineComment | MultiLineComment
  | ListAccessor | MapAccessor | GridAccessor | ArrayAccessor | StructAccessor
  | LeftSquare | RightSquare | LeftParen | RightParen | LeftBrace | RightBrace
  | Semicolon | Comma | Colon | Dot
  | PlusPlus | MinusMinus | Plus | Minus | BitNot | BitNotAssign | Not
  | Multiply | Divide | IntegerDivide | Modulo | Power | QuestionMark
  | NullCoalesce | NullCoalesceAssign | RightShift | LeftShift
  | LessThan | GreaterThan | LessThanEquals | GreaterThanEquals
  | Equals | NotEquals | BitAnd | BitXor | BitOr | And | Or | Xor
  | MultiplyAssign | DivideAssign | PlusAssign | MinusAssign | ModuloAssign
  | LeftShiftAssign | RightShiftAssign | BitAndAssign | BitXorAssign | BitOrAssign
  | NumberSign | DollarSign | AtSign
  | Identifier | BooleanLiteral | IntegerLiteral | RealLiteral
  | StringLiteral | VerbatimStringLiteral
  | Break | Exit | Do | Case | Else | New | Var | GlobalVar | Catch | Finally
  | Return | Continue | For | Switch | While | Until | Repeat | Function
  | With | Default | If | Then | Throw | Delete | Try | Enum | Constructor
  | Static
  | Macro | MacroName | MacroBody | Define | Region | EndRegion | RegionName
  | UnknownDirective | Backslash | TemplateStart | TemplateMiddle | TemplateEnd
  | SimpleTemplateString | LineBreak | Whitespace
deriving DecidableEq

/-- is_open_delimiter from src/lex/lexer.rs. -/
def isOpenDelimiter (kind : TokenKind) : Bool :=
  match kind with
  | .LeftParen | .LeftBrace | .LeftSquare
  | .ArrayAccessor | .ListAccessor | .GridAccessor
  | .MapAccessor | .StructAccessor => true
  | _ => false

/-- is_close_delimiter from src/lex/lexer.rs. -/
def isCloseDelimiter (kind : TokenKind) : Bool :=
  match kind with
  | .RightParen | .RightBrace | .RightSquare => true
  | _ => false

/-- is_matching_delimiter from src/lex/lexer.rs.  The source panics when the
first argument is not an open delimiter; every call site passes a kind taken
from the open-delimiter stack, so that arm is unreachable and is embedded as
`false`. -/
def isMatchingDelimiter (openKind closeKind : TokenKind) : Bool :=
  match openKind with
  | .LeftParen => closeKind = .RightParen
  | .LeftBrace => closeKind = .RightBrace
  | .LeftSquare | .ArrayAccessor | .ListAccessor
  | .GridAccessor | .MapAccessor | .StructAccessor => closeKind = .RightSquare
  | _ => false

/-- Token from src/lex/token.rs: an abstract view of the 8-byte packed record
with fields kind, payload (23 bits), has_leading_space and start (32 bits). -/
structure Token where
  kind : TokenKind
  hasLeadingSpace : Bool
  payload : Nat
  start : Nat
deriving DecidableEq

/-- Token::MAX_INDEX, the 23-bit payload mask value. -/
def tokenMaxIndex : Nat := 2 ^ 23 - 1

/-- Token::new; the payload is masked to its 23-bit field. -/
def Token.new (kind : TokenKind) (hasSpace : Bool) (payload : Nat) (start : Nat) : Token :=
  ⟨kind, hasSpace, payload % 2 ^ 23, start % 2 ^ 32⟩

/-- Token::set_payload; replaces the 23-bit payload field. -/
def Token.setPayload (t : Token) (payload : Nat) : Token :=
  { t with payload := payload % 2 ^ 23 }

/-- Default token used to keep arena reads total at indices that are in
range at every reachable call site. -/
def dTok : Token := ⟨.Error, false, 0, 0⟩

/-- is_horizontal_whitespace from src/lex/lexer.rs: space or tab. -/
def isHorizontalWhitespace (c : Nat) : Bool := c = 32 || c = 9

/-- is_identifier_byte from src/lex/identifier_lexer.rs. -/
def isIdentifierByte (c : Nat) : Bool :=
  (97 ≤ c && c ≤ 122) || (65 ≤ c && c ≤ 90) || c = 95 || (48 ≤ c && c ≤ 57)

/-- is_identifier_start from src/lex/identifier_lexer.rs. -/
def isIdentifierStart (c : Nat) : Bool :=
  (97 ≤ c && c ≤ 122) || (65 ≤ c && c ≤ 90) || c = 95

/-- scan_identifier_scalar from src/lex/identifier_lexer.rs, as the length of
the leading identifier-byte run (the SIMD path computes the same length). -/
def scanIdentifierScalar : List Nat → Nat
  | [] => 0
  | c :: rest => if isIdentifierByte c then scanIdentifierScalar rest + 1 else 0

/-- Final kind computation of scan_number_or_dot (after its loop exits). -/
def numberKind (foundDot : Bool) (index : Nat) : TokenKind :=
  if foundDot then (if index = 1 then .Dot else .RealLiteral) else .IntegerLiteral

/-- Loop of scan_number_or_dot from src/lex/number_lexer.rs, recursing over
the unscanned suffix while tracking the scanned length and the dot flag. -/
def scanNumberGo : List Nat → Bool → Nat → Nat × TokenKind
  | [], foundDot, index => (index, numberKind foundDot index)
  | c :: rest, foundDot, index =>
    if (48 ≤ c && c ≤ 57) || c = 95 then scanNumberGo rest foundDot (index + 1)
    else if c = 46 then
      (if foundDot then (index, .Error) else scanNumberGo rest true (index + 1))
    else (index, numberKind foundDot index)

/-- scan_number_or_dot from src/lex/number_lexer.rs. -/
def scanNumberOrDot (text : List Nat) : Nat × TokenKind := scanNumberGo text false 0

/-- Loop of scan_string_literal from src/lex/string_lexer.rs over the suffix
after the opening quote; returns the scanned length and the unterminated flag. -/
def scanStringGo : List Nat → Nat → Nat × Bool
  | [], index => (index, true)
  | c :: rest, index =>
    if c = 92 then
      match rest with
      | [] => (index + 2, true)
      | _ :: rest2 => scanStringGo rest2 (index + 2)
    else if c = 34 then (index + 1, false)
    else if c = 10 then (index, true)
    else scanStringGo rest (index + 1)

/-- scan_string_literal from src/lex/string_lexer.rs. -/
def scanStringLiteral (text : List Nat) : Nat × TokenKind :=
  let r := scanStringGo (text.drop 1) 1
  (r.1, if r.2 then .Error else .StringLiteral)

/-- Abort values: a Rust panic (including out-of-bounds accesses and todo
macros) or fuel exhaustion standing for divergence. -/
inductive Abort where
  | panic
  | timeout
deriving DecidableEq

/-- Equality of Except results is decidable componentwise, so concrete runs
can be checked by evaluation. -/
instance exceptDecEq {ε α : Type _} [DecidableEq ε] [DecidableEq α] :
    DecidableEq (Except ε α) := by
  intro a b
  cases a with
  | error x =>
    cases b with
    | error y =>
      exact decidable_of_iff (x = y)
        ⟨fun h => by rw [h], fun h => by injection h⟩
    | ok y => exact isFalse (by intro h; cases h)
  | ok x =>
    cases b with
    | error y => exact isFalse (by intro h; cases h)
    | ok y =>
      exact decidable_of_iff (x = y)
        ⟨fun h => by rw [h], fun h => by injection h⟩

/-- Loop of scan_verbatim_string_literal from src/lex/string_lexer.rs.  After
consuming a quote the source reads `text[index]` without a bounds check, which
panics when the quote is the final byte; that read is embedded as an abort. -/
def scanVerbGo : List Nat → Nat → Except Abort (Nat × Bool)
  | [], index => .ok (index, true)
  | c :: rest, index =>
    if c = 34 then
      match rest with
      | [] => .error .panic
      | c2 :: _ => if c2 = 34 then scanVerbGo rest (index + 1) else .ok (index + 1, false)
    else scanVerbGo rest (index + 1)

/-- scan_verbatim_string_literal from src/lex/string_lexer.rs. -/
def scanVerbatimStringLiteral (text : List Nat) : Except Abort (Nat × TokenKind) := do
  let r ← scanVerbGo (text.drop 1) 1
  return (r.1, if r.2 then TokenKind.Error else TokenKind.VerbatimStringLiteral)

/-- match_keyword from src/lex/lexer.rs: exact ASCII byte matches. -/
def matchKeyword (text : List Nat) : TokenKind :=
  if text = str2bytes "and" then .And
  else if text = str2bytes "or" then .Or
  else if text = str2bytes "xor" then .Xor
  else if text = str2bytes "not" then .Not
  else if text = str2bytes "mod" then .Modulo
  else if text = str2bytes "div" then .IntegerDivide
  else if text = str2bytes "begin" then .LeftBrace
  else if text = str2bytes "end" then .RightBrace
  else if text = str2bytes "true" then .BooleanLiteral
  else if text = str2bytes "false" then .BooleanLiteral
  else if text = str2bytes "break" then .Break
  else if text = str2bytes "exit" then .Exit
  else if text = str2bytes "do" then .Do
  else if text = str2bytes "until" then .Until
  else if text = str2bytes "case" then .Case
  else if text = str2bytes "else" then .Else
  else if text = str2bytes "new" then .New
  else if text = str2bytes "var" then .Var
  else if text = str2bytes "globalvar" then .GlobalVar
  else if text = str2bytes "try" then .Try
  else if text = str2bytes "catch" then .Catch
  else if text = str2bytes "finally" then .Finally
  else if text = str2bytes "return" then .Return
  else if text = str2bytes "continue" then .Continue
  else if text = str2bytes "for" then .For
  else if text = str2bytes "switch" then .Switch
  else if text = str2bytes "while" then .While
  else if text = str2bytes "repeat" then .Repeat
  else if text = str2bytes "function" then .Function
  else if text = str2bytes "with" then .With
  else if text = str2bytes "default" then .Default
  else if text = str2bytes "if" then .If
  else if text = str2bytes "then" then .Then
  else if text = str2bytes "throw" then .Throw
  else if text = str2bytes "delete" then .Delete
  else if text = str2bytes "enum" then .Enum
  else if text = str2bytes "constructor" then .Constructor
  else .Identifier

/-- Line from src/lex/tokenized_text.rs: a start offset and an indent width. -/
structure Line where
  start : Nat
  indent : Nat
deriving DecidableEq

/-- Comment from src/lex/tokenized_text.rs: a byte range. -/
structure Comment where
  start : Nat
  stop : Nat
deriving DecidableEq

/-- Dispatch from src/lex/lexer.rs. -/
inductive Dispatch where
  | Error | NewLine | Cr | HorizontalSpace | Exclamation | Quote
  | IdentifierStart | Dollar | Hash | Percent | Ampersand | ParenOpen
  | ParenClose | Asterisk | Plus | Comma | Minus | Dot | Slash
  | DigitZero | DigitNonZero | Colon | Semicolon | LessThan | Equal
  | GreaterThan | Question | At | BracketOpen | BracketClose | Caret
  | BraceOpen | Pipe | BraceClose | Tilde | Unicode
deriving DecidableEq

/-- DISPATCH_TABLE from src/lex/lexer.rs, as the byte-classifying match that
builds the 256-entry table. -/
def dispatch (c : Nat) : Dispatch :=
  if c = 10 then .NewLine else if c = 13 then .Cr
  else if c = 33 then .Exclamation else if c = 34 then .Quote
  else if c = 36 then .Dollar else if c = 35 then .Hash
  else if c = 37 then .Percent else if c = 38 then .Ampersand
  else if c = 40 then .ParenOpen else if c = 41 then .ParenClose
  else if c = 42 then .Asterisk else if c = 43 then .Plus
  else if c = 44 then .Comma else if c = 45 then .Minus
  else if c = 46 then .Dot else if c = 47 then .Slash
  else if c = 48 then .DigitZero else if 49 ≤ c ∧ c ≤ 57 then .DigitNonZero
  else if c = 58 then .Colon else if c = 59 then .Semicolon
  else if c = 60 then .LessThan else if c = 61 then .Equal
  else if c = 62 then .GreaterThan else if c = 63 then .Question
  else if c = 64 then .At else if c = 91 then .BracketOpen
  else if c = 93 then .BracketClose else if c = 94 then .Caret
  else if c = 123 then .BraceOpen else if c = 124 then .Pipe
  else if c = 125 then .BraceClose else if c = 126 then .Tilde
  else if isIdentifierStart c then .IdentifierStart
  else if isHorizontalWhitespace c then .HorizontalSpace
  else if c ≤ 127 then .Error
  else .Unicode

/-- Lexer state from src/lex/lexer.rs, with its owned TokenizedText output
inlined as the token, comment, line and diagnostic fields. -/
structure LexState where
  tokens : List Token
  comments : List Comment
  lines : List Line
  diagnostics : List String
  lastLineInserted : Bool
  cursor : Nat
  lineIndex : Nat
  openDelimiters : List Nat
  hasLeadingSpace : Bool
  hasMismatchedBrackets : Bool
deriving DecidableEq

/-- The initial lexer state (Lexer::new plus TokenizedText::new). -/
def lexInit : LexState := ⟨[], [], [], [], false, 0, 0, [], false, false⟩

/-- SourceText::get_byte: a checked byte read that panics out of range. -/
def getByte (text : List Nat) (i : Nat) : Except Abort Nat :=
  match text.get? i with
  | some b => .ok b
  | none => .error .panic

/-- Lexer::peek: the next byte, or 0 at or past the end of input. -/
def peekByte (text : List Nat) (st : LexState) : Nat :=
  if st.cursor + 1 < text.length then text.getD (st.cursor + 1) 0 else 0

/-- Lexer::add_token_with_payload: appends a token carrying the pending
leading-space flag and clears that flag; returns the new token's index. -/
def addToken (st : LexState) (kind : TokenKind) (payload : Nat) (start : Nat) :
    LexState × Nat :=
  ({ st with
      tokens := st.tokens ++ [Token.new kind st.hasLeadingSpace payload start],
      hasLeadingSpace := false },
    st.tokens.length)

/-- SourceText::find_next: offset of the next occurrence of a byte at or
after start. -/
def findNext (text : List Nat) (b : Nat) (start : Nat) : Option Nat :=
  match List.findIdx? (fun c => c = b) (text.drop start) with
  | some o => some (start + o)
  | none => none

/-- Loop of Lexer::make_lines: pushes a Line for each run ending in a
newline and returns the accumulated lines with the final run start.  Each
iteration moves start past a newline, so the input length bounds the
iteration count and the fuel used at the call site is always sufficient. -/
def makeLinesGo (text : List Nat) : Nat → Nat → List Line → List Line × Nat
  | 0, start, acc => (acc, start)
  | fuel + 1, start, acc =>
    match findNext text 10 start with
    | some nl => makeLinesGo text fuel (nl + 1) (acc ++ [⟨start, 0⟩])
    | none => (acc, start)

/-- Lexer::make_lines: the line pre-pass, including the synthetic final
line and the last_line_is_inserted flag. -/
def makeLines (text : List Nat) : List Line × Bool :=
  if text.length = 0 then ([⟨0, 0⟩], false)
  else
    let (ls, start) := makeLinesGo text (text.length + 2) 0 []
    let ls := ls ++ [⟨start, 0⟩]
    if start ≠ text.length then (ls ++ [⟨text.length, 0⟩], true) else (ls, false)

/-- Length of the leading horizontal-whitespace run (the loop body of
Lexer::skip_horizontal_whitespace). -/
def countHWS : List Nat → Nat
  | [] => 0
  | c :: rest => if isHorizontalWhitespace c then countHWS rest + 1 else 0

/-- Lexer::skip_horizontal_whitespace. -/
def skipHorizontalWhitespace (text : List Nat) (st : LexState) : LexState :=
  { st with cursor := st.cursor + countHWS (text.drop st.cursor) }

/-- Lexer::advance_to_line: jump the cursor to a line start, skip its
indentation and record the indent width.  Every reachable call targets an
existing line record, so the line read stays in range. -/
def advanceToLine (text : List Nat) (st : LexState) (toLine : Nat) : LexState :=
  let lineStart := (st.lines.getD toLine ⟨0, 0⟩).start
  let st := { st with lineIndex := toLine, cursor := lineStart }
  let st := skipHorizontalWhitespace text st
  { st with lines := st.lines.set toLine ⟨lineStart, st.cursor - lineStart⟩ }

/-- Lexer::handle_open_delimiter: push the open token's index. -/
def handleOpenDelimiter (st : LexState) (openTokenIndex : Nat) : LexState :=
  { st with openDelimiters := openTokenIndex :: st.openDelimiters }

/-- Lexer::handle_close_delimiter: pop the delimiter stack, store the open
index in the close token's payload, and back-patch the open token's payload
when the pair matches; otherwise set the mismatch flag. -/
def handleCloseDelimiter (st : LexState) (closeTokenIndex : Nat) : LexState :=
  match st.openDelimiters with
  | [] => { st with hasMismatchedBrackets := true }
  | openTokenIndex :: rest =>
    let closeTok := (st.tokens.getD closeTokenIndex dTok).setPayload openTokenIndex
    let toks1 := st.tokens.set closeTokenIndex closeTok
    let openTok := toks1.getD openTokenIndex dTok
    if isMatchingDelimiter openTok.kind closeTok.kind then
      { st with
          tokens := toks1.set openTokenIndex (openTok.setPayload closeTokenIndex),
          openDelimiters := rest }
    else
      { st with tokens := toks1, openDelimiters := rest, hasMismatchedBrackets := true }

/-- Lexer::lex_file_start: emit the FileStart sentinel, set the pending
leading-space flag and enter line 0. -/
def lexFileStart (text : List Nat) (st : LexState) : LexState :=
  let st := (addToken st .FileStart 0 0).1
  let st := { st with hasLeadingSpace := true }
  advanceToLine text st 0

/-- Lexer::lex_file_end: emit the FileEnd sentinel at the cursor. -/
def lexFileEnd (st : LexState) : LexState :=
  let st := { st with hasLeadingSpace := true }
  (addToken st .FileEnd 0 st.cursor).1

/-- Lexer::lex_byte: a single-byte token. -/
def lexByte (st : LexState) (kind : TokenKind) : LexState :=
  let (st, _) := addToken st kind 0 st.cursor
  { st with cursor := st.cursor + 1 }

/-- Lexer::lex_open_delimiter. -/
def lexOpenDelimiter (st : LexState) (kind : TokenKind) : LexState :=
  let (st, idx) := addToken st kind 0 st.cursor
  let st := { st with cursor := st.cursor + 1 }
  handleOpenDelimiter st idx

/-- Lexer::lex_close_delimiter. -/
def lexCloseDelimiter (st : LexState) (kind : TokenKind) : LexState :=
  let (st, idx) := addToken st kind 0 st.cursor
  let st := { st with cursor := st.cursor + 1 }
  handleCloseDelimiter st idx

/-- Lexer::lex_byte_and_equals: emit the equals form when the byte after the
cursor is `=`, else the plain form; the token starts at the given offset. -/
def lexByteAndEquals (text : List Nat) (st : LexState) (start : Nat)
    (kind equalsKind : TokenKind) : LexState :=
  if peekByte text st = 61 then
    let st := { st with cursor := st.cursor + 2 }
    (addToken st equalsKind 0 start).1
  else
    let st := { st with cursor := st.cursor + 1 }
    (addToken st kind 0 start).1

/-- Lexer::lex_byte_twice_or_equals: `X=`, `XX` or `X` for a start byte X. -/
def lexByteTwiceOrEquals (text : List Nat) (st : LexState)
    (kind twiceKind equalsKind : TokenKind) : Except Abort LexState := do
  let start := st.cursor
  let startByte ← getByte text st.cursor
  if peekByte text st = 61 then
    let st := { st with cursor := st.cursor + 2 }
    return (addToken st equalsKind 0 start).1
  else if peekByte text st = startByte then
    let st := { st with cursor := st.cursor + 2 }
    return (addToken st twiceKind 0 start).1
  else
    let st := { st with cursor := st.cursor + 1 }
    return (addToken st kind 0 start).1

/-- Lexer::lex_horizontal_whitespace. -/
def lexHorizontalWhitespace (text : List Nat) (st : LexState) : LexState :=
  skipHorizontalWhitespace text { st with hasLeadingSpace := true }

/-- Lexer::lex_vertical_whitespace (advance_to_next_line inlined). -/
def lexVerticalWhitespace (text : List Nat) (st : LexState) : LexState :=
  advanceToLine text { st with hasLeadingSpace := true } (st.lineIndex + 1)

/-- Lexer::lex_cr: normalize CR+LF, otherwise report the unsupported line
ending and treat the CR as horizontal whitespace. -/
def lexCr (text : List Nat) (st : LexState) : LexState :=
  if peekByte text st = 10 then lexVerticalWhitespace text st
  else
    let isLfcr := 0 < st.cursor && text.getD (st.cursor - 1) 0 = 10
    let msg :=
      if isLfcr then "the LF+CR line ending is not supported, only LF and CR+LF are supported"
      else "a raw CR line ending is not supported, only LF and CR+LF are supported"
    { st with
        diagnostics := st.diagnostics ++ [msg],
        hasLeadingSpace := true,
        cursor := st.cursor + 1 }

/-- Length of the error run consumed by Lexer::lex_error: bytes up to the
next identifier byte or horizontal whitespace. -/
def countErrorRun : List Nat → Nat
  | [] => 0
  | c :: rest =>
    if isIdentifierByte c || isHorizontalWhitespace c then 0 else countErrorRun rest + 1

/-- Lexer::lex_error: consume at least one byte, push a diagnostic and emit
an Error token whose payload is the run length. -/
def lexError (text : List Nat) (st : LexState) : LexState :=
  let start := st.cursor
  let n := countErrorRun (text.drop st.cursor)
  let cursor2 := if n = 0 then st.cursor + 1 else st.cursor + n
  let len := if n = 0 then 1 else n
  let st := { st with
      cursor := cursor2,
      diagnostics := st.diagnostics ++ ["unrecognized characters while parsing"] }
  (addToken st .Error len start).1

/-- Lexer::lex_keyword_or_identifier: scan the identifier run and emit the
keyword kind when the slice matches, otherwise an Identifier. -/
def lexKeywordOrIdentifier (text : List Nat) (st : LexState) : Except Abort LexState := do
  let start := st.cursor
  let b ← getByte text start
  if 127 < b then return lexError text st
  else
    let n := scanIdentifierScalar (text.drop start)
    let slice := (text.drop start).take n
    let st := { st with cursor := st.cursor + n }
    return (addToken st (matchKeyword slice) 0 start).1

/-- Lexer::lex_accessor: `[` plus an accessor sigil, or a plain LeftSquare;
after stepping past the `[` the source reads the current byte with a checked
index, which panics when `[` is the final byte. -/
def lexAccessor (text : List Nat) (st : LexState) : Except Abort LexState := do
  let start := st.cursor
  let st := { st with cursor := st.cursor + 1 }
  let c ← getByte text st.cursor
  let kind : TokenKind :=
    if c = 124 then .ListAccessor
    else if c = 63 then .MapAccessor
    else if c = 35 then .GridAccessor
    else if c = 64 then .ArrayAccessor
    else if c = 36 then .StructAccessor
    else .LeftSquare
  let st := if kind = TokenKind.LeftSquare then st else { st with cursor := st.cursor + 1 }
  let (st, idx) := addToken st kind 0 start
  return handleOpenDelimiter st idx

/-- Lexer::lex_less_than: after stepping past `<` the source reads the
current byte with a checked index (panics at end of input), then applies the
`<<`/`<=`/`<` decision tree. -/
def lexLessThan (text : List Nat) (st : LexState) : Except Abort LexState := do
  let start := st.cursor
  let st := { st with cursor := st.cursor + 1 }
  let c ← getByte text st.cursor
  if c = 60 then
    let st := { st with cursor := st.cursor + 1 }
    return lexByteAndEquals text st start .LeftShift .LeftShiftAssign
  else if c = 61 then
    let st := { st with cursor := st.cursor + 1 }
    return (addToken st .LessThanEquals 0 start).1
  else
    return (addToken st .LessThan 0 start).1

/-- Lexer::lex_greater_than: mirror image of lex_less_than for `>`. -/
def lexGreaterThan (text : List Nat) (st : LexState) : Except Abort LexState := do
  let start := st.cursor
  let st := { st with cursor := st.cursor + 1 }
  let c ← getByte text st.cursor
  if c = 62 then
    let st := { st with cursor := st.cursor + 1 }
    return lexByteAndEquals text st start .RightShift .RightShiftAssign
  else if c = 61 then
    let st := { st with cursor := st.cursor + 1 }
    return (addToken st .GreaterThanEquals 0 start).1
  else
    return (addToken st .GreaterThan 0 start).1

/-- Lexer::lex_question: `??`/`??=` via lex_byte_and_equals; the single `?`
arm emits GreaterThan exactly as the source does. -/
def lexQuestion (text : List Nat) (st : LexState) : Except Abort LexState := do
  let start := st.cursor
  let st := { st with cursor := st.cursor + 1 }
  let c ← getByte text st.cursor
  if c = 63 then
    let st := { st with cursor := st.cursor + 1 }
    return lexByteAndEquals text st start .NullCoalesce .NullCoalesceAssign
  else
    return (addToken st .GreaterThan 0 start).1

/-- Lexer::lex_number_literal_or_dot. -/
def lexNumberLiteralOrDot (text : List Nat) (st : LexState) : LexState :=
  let start := st.cursor
  let (len, kind) := scanNumberOrDot (text.drop start)
  if kind = TokenKind.Error then lexError text st
  else
    let st := { st with cursor := st.cursor + len }
    (addToken st kind 0 start).1

/-- Lexer::lex_string_literal. -/
def lexStringLiteral (text : List Nat) (st : LexState) : LexState :=
  let start := st.cursor
  let (len, kind) := scanStringLiteral (text.drop start)
  if kind = TokenKind.Error then lexError text st
  else
    let st := { st with cursor := st.cursor + len }
    (addToken st kind 0 start).1

/-- Lexer::lex_verbatim_string_literal. -/
def lexVerbatimStringLiteral (text : List Nat) (st : LexState) : Except Abort LexState := do
  let start := st.cursor
  let (len, kind) ← scanVerbatimStringLiteral (text.drop start)
  if kind = TokenKind.Error then return lexError text st
  else
    let st := { st with cursor := st.cursor + len }
    return (addToken st kind 0 start).1

/-- Inner scan of the block-comment loop in Lexer::lex_comment_or_divide:
advance while another byte remains, stopping one past a `*`.  The cursor
grows every step, so the fuel passed at the call site (input length + 1) is
always sufficient. -/
def bcInner (text : List Nat) : Nat → Nat → Nat
  | 0, c => c
  | fuel + 1, c =>
    if c + 1 < text.length then
      (if text.getD (c + 1) 0 = 42 then c + 2 else bcInner text fuel (c + 1))
    else c

/-- Outer block-comment loop of Lexer::lex_comment_or_divide.  After the
inner scan the source reads the current byte with a checked index, which
panics when the scan stopped at the end of input; when the scan makes no
progress the loop repeats with an unchanged state, so fuel exhaustion here
models real divergence. -/
def bcOuter (text : List Nat) (start : Nat) : Nat → LexState → Except Abort LexState
  | 0, _ => .error .timeout
  | fuel + 1, st =>
    if st.cursor < text.length then
      let c1 := bcInner text (text.length + 1) st.cursor
      match text.get? c1 with
      | none => .error .panic
      | some b =>
        if b = 47 then
          .ok { st with cursor := c1 + 1, comments := st.comments ++ [⟨start, c1 + 1⟩] }
        else bcOuter text start fuel { st with cursor := c1 }
    else .ok st

/-- Lexer::lex_comment_or_divide: single-line comment, block comment, or the
`/`/`/=` operator pair. -/
def lexCommentOrDivide (text : List Nat) (fuel : Nat) (st : LexState) :
    Except Abort LexState :=
  let start := st.cursor
  if peekByte text st = 47 then
    let st := advanceToLine text st (st.lineIndex + 1)
    .ok { st with comments := st.comments ++ [⟨start, st.cursor⟩] }
  else if peekByte text st = 42 then
    bcOuter text start fuel { st with cursor := st.cursor + 1 }
  else
    .ok (lexByteAndEquals text st start .Divide .DivideAssign)

/-- One iteration of the main lexer loop: dispatch on the current byte (the
loop guard guarantees it is in range) and run the handler.  The Hash, Dollar
and Unicode arms are todo macros in the source and abort. -/
def lexStep (text : List Nat) (fuel : Nat) (st : LexState) : Except Abort LexState :=
  match dispatch (text.getD st.cursor 0) with
  | .IdentifierStart => lexKeywordOrIdentifier text st
  | .Dot => .ok (lexNumberLiteralOrDot text st)
  | .DigitZero => .ok (lexNumberLiteralOrDot text st)
  | .DigitNonZero => .ok (lexNumberLiteralOrDot text st)
  | .Quote => .ok (lexStringLiteral text st)
  | .At => lexVerbatimStringLiteral text st
  | .Dollar => .error .panic
  | .HorizontalSpace => .ok (lexHorizontalWhitespace text st)
  | .NewLine => .ok (lexVerticalWhitespace text st)
  | .Cr => .ok (lexCr text st)
  | .Slash => lexCommentOrDivide text fuel st
  | .Hash => .error .panic
  | .BracketOpen => lexAccessor text st
  | .BracketClose => .ok (lexCloseDelimiter st .RightSquare)
  | .ParenOpen => .ok (lexOpenDelimiter st .LeftParen)
  | .ParenClose => .ok (lexCloseDelimiter st .RightParen)
  | .BraceOpen => .ok (lexOpenDelimiter st .LeftBrace)
  | .BraceClose => .ok (lexCloseDelimiter st .RightBrace)
  | .Comma => .ok (lexByte st .Comma)
  | .Colon => .ok (lexByte st .Colon)
  | .Semicolon => .ok (lexByte st .Semicolon)
  | .Exclamation => .ok (lexByteAndEquals text st st.cursor .Not .NotEquals)
  | .Percent => .ok (lexByteAndEquals text st st.cursor .Modulo .ModuloAssign)
  | .Caret => .ok (lexByteAndEquals text st st.cursor .BitXor .BitXorAssign)
  | .Tilde => .ok (lexByteAndEquals text st st.cursor .BitNot .BitNotAssign)
  | .Equal => .ok (lexByteAndEquals text st st.cursor .Equals .Equals)
  | .Ampersand => lexByteTwiceOrEquals text st .BitAnd .And .BitAndAssign
  | .Asterisk => lexByteTwiceOrEquals text st .Multiply .Power .MultiplyAssign
  | .Plus => lexByteTwiceOrEquals text st .Plus .PlusPlus .PlusAssign
  | .Minus => lexByteTwiceOrEquals text st .Minus .MinusMinus .MinusAssign
  | .Pipe => lexByteTwiceOrEquals text st .BitOr .Or .BitOrAssign
  | .LessThan => lexLessThan text st
  | .GreaterThan => lexGreaterThan text st
  | .Question => lexQuestion text st
  | .Unicode => .error .panic
  | .Error => .ok (lexError text st)

/-- The lexer's output value: the TokenizedText fields together with the
has_mismatched_brackets summary flag. -/
structure LexOutput where
  tokens : List Token
  comments : List Comment
  lines : List Line
  diagnostics : List String
  lastLineInserted : Bool
  hasMismatchedBrackets : Bool
deriving DecidableEq

/-- Result of a lexer run: normal completion, a panic, or divergence
rendered as fuel exhaustion. -/
inductive LexResult where
  | ok : LexOutput → LexResult
  | panic : LexResult
  | timeout : LexResult
deriving DecidableEq

/-- Package the final lexer state as its output. -/
def mkLexOutput (st : LexState) : LexOutput :=
  ⟨st.tokens, st.comments, st.lines, st.diagnostics, st.lastLineInserted,
    st.hasMismatchedBrackets⟩

/-- Main loop of Lexer::lex plus the trailing FileEnd emission and the
too-many-tokens overflow check (a todo macro in the source, embedded as a
panic). -/
def lexLoop (text : List Nat) : Nat → LexState → LexResult
  | 0, _ => .timeout
  | fuel + 1, st =>
    if st.cursor < text.length then
      match lexStep text fuel st with
      | .ok st2 => lexLoop text fuel st2
      | .error .panic => .panic
      | .error .timeout => .timeout
    else
      let st := lexFileEnd st
      if tokenMaxIndex ≤ st.tokens.length then .panic else .ok (mkLexOutput st)

/-- Lexer::lex for a given fuel: line pre-pass, FileStart, main loop. -/
def lexRun (text : List Nat) (fuel : Nat) : LexResult :=
  let ml := makeLines text
  let st := { lexInit with lines := ml.1, lastLineInserted := ml.2 }
  lexLoop text fuel (lexFileStart text st)

/-- lex entry point with a fuel budget sufficient for every terminating
run (each main-loop iteration consumes at least one input byte, and the
block-comment loop moves its cursor forward whenever it terminates). -/
def lex (text : List Nat) : LexResult := lexRun text (2 * text.length + 8)

/-- TokenKind::is_prefix_operator from src/lex/token.rs. -/
def isPrefixOp (k : TokenKind) : Bool :=
  match k with
  | .Plus | .Minus | .Not | .BitNot | .PlusPlus | .MinusMinus | .New => true
  | _ => false

/-- TokenKind::is_postfix_operator from src/lex/token.rs. -/
def isPostfixOp (k : TokenKind) : Bool :=
  match k with
  | .PlusPlus | .MinusMinus => true
  | _ => false

/-- TokenKind::is_binary_operator from src/lex/token.rs. -/
def isBinaryOp (k : TokenKind) : Bool :=
  match k with
  | .Equals | .Multiply | .Divide | .Plus | .Minus | .Modulo
  | .LeftShift | .RightShift | .BitAnd | .BitXor | .BitOr | .NullCoalesce => true
  | _ => false

/-- NodeKind from src/parse/parser.rs. -/
inductive NodeKind where
  | Ignore | Error | File | Block | EnumDecl | EnumBlock | EnumMember
  | Function | PrefixOpExpr | ParenExpr | ArrayExpr
deriving DecidableEq

/-- Event from src/parse/parser.rs; the source's `End` constructor is named
`stop` here because `end` is reserved in Lean. -/
inductive Event where
  | start (kind : NodeKind)
  | stop
  | leaf (token : Nat) (tokenKind : TokenKind)
  | unexpected (token : Nat) (tokenKind : TokenKind)
  | missing (kind : NodeKind)
deriving DecidableEq

/-- StateKind from src/parse/parser.rs. -/
inductive StateKind where
  | Statement | StatementLoop | BlockStart | BlockEnd
  | EnumStart | EnumItem | EnumLoop | EnumEnd
deriving DecidableEq

/-- State from src/parse/parser.rs. -/
structure PState where
  kind : StateKind
  hasError : Bool
deriving DecidableEq

/-- TokenPrecedence::from(TokenKind) composed with TokenPrecedence::precedence
from src/parse/parser.rs: the numeric recovery ladder. -/
def tokenPrecedence (k : TokenKind) : Nat :=
  match k with
  | .Identifier => 1
  | .RealLiteral => 1
  | .IntegerLiteral => 1
  | k =>
    if isPrefixOp k || isPostfixOp k || isBinaryOp k then 2
    else
      match k with
      | .LeftParen => 3 | .LeftSquare => 3
      | .Dot => 4
      | .Comma => 5
      | .RightParen => 6 | .RightSquare => 6
      | .LeftBrace => 7
      | .Semicolon => 8 | .FileEnd => 8
      | .RightBrace => 10
      | _ => 0

/-- ListNodeKind from src/parse/parser.rs. -/
structure ListNodeKind where
  itemState : StateKind
  loopState : StateKind
  endState : StateKind
  itemKind : NodeKind
  separator : TokenKind
  closeToken : TokenKind

/-- ENUM_MEMBER_LIST from src/parse/parser.rs. -/
def enumMemberList : ListNodeKind :=
  ⟨.EnumItem, .EnumLoop, .EnumEnd, .EnumMember, .Comma, .RightBrace⟩

/-- Parser state from src/parse/parser.rs, with its owned ParseEvents output
inlined as the event and diagnostic fields. -/
structure ParserState where
  events : List Event
  diagnostics : List String
  cursor : Nat
  lastStatementStart : Nat
  depth : Nat
  stack : List PState
deriving DecidableEq

/-- ChunkedIndexVec::get on the token arena: reading outside the initialized
range is a programmer error in the source (debug assertion, uninitialized
memory in release) and is embedded as an abort. -/
def tokenGet (tokens : List Token) (i : Nat) : Except Abort Token :=
  match tokens.get? i with
  | some t => .ok t
  | none => .error .panic

/-- Parser::current. -/
def pCurrent (tokens : List Token) (st : ParserState) : Except Abort TokenKind := do
  let t ← tokenGet tokens st.cursor
  return t.kind

/-- Parser::push_state. -/
def pushState (st : ParserState) (kind : StateKind) : ParserState :=
  { st with stack := ⟨kind, false⟩ :: st.stack }

/-- Parser::pop_state; every call site runs under the main-loop guard that
the stack is nonempty. -/
def popState (st : ParserState) : ParserState :=
  { st with stack := st.stack.tail }

/-- Parser::emit_start: push a Start event and increment the depth counter. -/
def emitStart (st : ParserState) (kind : NodeKind) : ParserState :=
  { st with events := st.events ++ [.start kind], depth := st.depth + 1 }

/-- Parser::emit_end: push an End event; the source computes
depth.checked_sub(1) (panicking at zero) but discards the result, so the
depth field is left unchanged. -/
def emitEnd (st : ParserState) : Except Abort ParserState :=
  if st.depth = 0 then .error .panic
  else .ok { st with events := st.events ++ [.stop] }

/-- Parser::emit_leaf. -/
def emitLeaf (tokens : List Token) (st : ParserState) (token : Nat) :
    Except Abort ParserState := do
  let t ← tokenGet tokens token
  return { st with events := st.events ++ [.leaf token t.kind] }

/-- Parser::emit_unexpected. -/
def emitUnexpected (tokens : List Token) (st : ParserState) (token : Nat) :
    Except Abort ParserState := do
  let t ← tokenGet tokens token
  return { st with events := st.events ++ [.unexpected token t.kind] }

/-- Parser::emit_missing. -/
def emitMissing (st : ParserState) (kind : NodeKind) : ParserState :=
  { st with events := st.events ++ [.missing kind] }

/-- Parser::eat: leaf event for the current token, then advance. -/
def eat (tokens : List Token) (st : ParserState) : Except Abort ParserState := do
  let st ← emitLeaf tokens st st.cursor
  return { st with cursor := st.cursor + 1 }

/-- Parser::try_eat. -/
def tryEat (tokens : List Token) (st : ParserState) (kind : TokenKind) :
    Except Abort (ParserState × Bool) := do
  let c ← pCurrent tokens st
  if c = kind then
    let st ← eat tokens st
    return (st, true)
  else return (st, false)

/-- Parser::eat_or_panic: the source panics when the expected token is
absent. -/
def eatOrPanic (tokens : List Token) (st : ParserState) (kind : TokenKind) :
    Except Abort ParserState := do
  let (st, ate) ← tryEat tokens st kind
  if ate then return st else .error .panic

/-- Parser::eat_expect: on a mismatch emit Unexpected and advance the cursor
unconditionally, even at the FileEnd sentinel. -/
def eatExpect (tokens : List Token) (st : ParserState) (kind : TokenKind) :
    Except Abort ParserState := do
  let (st, ate) ← tryEat tokens st kind
  if ate then return st
  else
    let st ← emitUnexpected tokens st st.cursor
    return { st with cursor := st.cursor + 1 }

/-- Scan loop of Parser::eat_or_recover: stop at EOF (not recovered), at the
expected kind (recovered) or at a token of at least the recovery precedence
(not recovered); otherwise advance.  The cursor grows each step and the read
at or past the arena end aborts, so the fuel passed at the call site (token
count + 1) is always sufficient. -/
def recoverLoop (tokens : List Token) (kind : TokenKind) (prec : Nat) :
    Nat → ParserState → Except Abort (ParserState × Bool)
  | 0, _ => .error .timeout
  | fuel + 1, st => do
    let c ← pCurrent tokens st
    if c = TokenKind.FileEnd then return (st, false)
    else if c = kind then return (st, true)
    else if prec ≤ tokenPrecedence c then return (st, false)
    else recoverLoop tokens kind prec fuel { st with cursor := st.cursor + 1 }

/-- Unexpected events for each skipped token in Parser::eat_or_recover,
indexed from a start position for a given count. -/
def emitUnexpectedRange (tokens : List Token) (st : ParserState) :
    Nat → Nat → Except Abort ParserState
  | _, 0 => .ok st
  | i, n + 1 => do
    let st ← emitUnexpected tokens st i
    emitUnexpectedRange tokens st (i + 1) n

/-- Parser::eat_or_recover. -/
def eatOrRecover (tokens : List Token) (st : ParserState) (kind : TokenKind) :
    Except Abort (ParserState × Bool) := do
  let c ← pCurrent tokens st
  if c = kind then
    let st ← eat tokens st
    return (st, true)
  else
    let start := st.cursor
    let (st2, recovered) ←
      recoverLoop tokens kind (tokenPrecedence kind) (tokens.length + 1) st
    if recovered then
      let st3 ← emitUnexpectedRange tokens st2 start (st2.cursor - start)
      let st4 ← eat tokens st3
      return (st4, true)
    else return ({ st2 with cursor := start }, false)

/-- Parser::statement_loop. -/
def statementLoop (tokens : List Token) (st : ParserState) :
    Except Abort ParserState := do
  let c ← pCurrent tokens st
  if c = TokenKind.RightBrace || c = TokenKind.FileEnd then return popState st
  else return pushState st .Statement

/-- Parser::statement. -/
def statement (tokens : List Token) (st : ParserState) : Except Abort ParserState := do
  let st := popState st
  let st := { st with lastStatementStart := st.events.length }
  let c ← pCurrent tokens st
  match c with
  | .LeftBrace => return pushState st .BlockStart
  | .Enum => return pushState st .EnumStart
  | _ =>
    let st ← emitUnexpected tokens st st.cursor
    return { st with cursor := st.cursor + 1 }

/-- Parser::block_start: Start(Block), consume `{` (asserted present), push
StatementLoop then BlockEnd. -/
def blockStart (tokens : List Token) (st : ParserState) : Except Abort ParserState := do
  let st := popState st
  let st := emitStart st .Block
  let st ← eatOrPanic tokens st .LeftBrace
  return pushState (pushState st .BlockEnd) .StatementLoop

/-- Parser::block_end: consume `}` through eat_or_panic and emit End. -/
def blockEnd (tokens : List Token) (st : ParserState) : Except Abort ParserState := do
  let st := popState st
  let st ← eatOrPanic tokens st .RightBrace
  emitEnd st

/-- Parser::push_list_start. -/
def pushListStart (tokens : List Token) (st : ParserState) (kind : ListNodeKind) :
    Except Abort ParserState := do
  let st := pushState (pushState (pushState st kind.endState) kind.loopState) kind.itemState
  let c ← pCurrent tokens st
  if c = kind.separator then return emitMissing st kind.itemKind
  else return st

/-- Inner separator run of Parser::list_loop: Missing plus eat for each
further separator.  Each iteration consumes a token, so the fuel passed at
the call site (token count + 1) is always sufficient. -/
def sepLoop (tokens : List Token) (kind : ListNodeKind) :
    Nat → ParserState → Except Abort ParserState
  | 0, _ => .error .timeout
  | fuel + 1, st => do
    let c ← pCurrent tokens st
    if c = kind.separator then
      let st := emitMissing st kind.itemKind
      let st ← eat tokens st
      sepLoop tokens kind fuel st
    else return st

/-- Parser::list_loop. -/
def listLoop (tokens : List Token) (st : ParserState) (kind : ListNodeKind) :
    Except Abort ParserState := do
  let thisState := (st.stack.headD ⟨kind.loopState, false⟩).kind
  let st := popState st
  let (st, ate) ← tryEat tokens st kind.separator
  if ate then
    let st ← sepLoop tokens kind (tokens.length + 1) st
    let c ← pCurrent tokens st
    if c ≠ kind.closeToken then
      return pushState (pushState st thisState) kind.itemState
    else return st
  else
    let (st, _) ← eatOrRecover tokens st kind.closeToken
    return st

/-- Parser::enum_start. -/
def enumStart (tokens : List Token) (st : ParserState) : Except Abort ParserState := do
  let st := popState st
  let st := emitStart st .EnumDecl
  let st ← eatOrPanic tokens st .Enum
  let st ← eatExpect tokens st .Identifier
  let st := emitStart st .EnumBlock
  let (st, ok) ← eatOrRecover tokens st .LeftBrace
  if !ok then
    let st ← emitEnd st
    emitEnd st
  else
    pushListStart tokens st enumMemberList

/-- Parser::enum_item. -/
def enumItem (tokens : List Token) (st : ParserState) : Except Abort ParserState := do
  let st := popState st
  let st := emitStart st .EnumMember
  let (st, _) ← tryEat tokens st .Identifier
  emitEnd st

/-- Parser::enum_end. -/
def enumEnd (tokens : List Token) (st : ParserState) : Except Abort ParserState := do
  let st := popState st
  let (st, _) ← eatOrRecover tokens st .RightBrace
  let st ← emitEnd st
  emitEnd st

/-- Result of a parser run. -/
inductive PResult where
  | ok : ParserState → PResult
  | panic : PResult
  | timeout : PResult
deriving DecidableEq

/-- Main loop of Parser::parse: dispatch on the top work-stack state until
the stack empties. -/
def parseLoop (tokens : List Token) : Nat → ParserState → PResult
  | 0, _ => .timeout
  | fuel + 1, st =>
    match st.stack with
    | [] => .ok st
    | top :: _ =>
      let r : Except Abort ParserState :=
        match top.kind with
        | .StatementLoop => statementLoop tokens st
        | .Statement => statement tokens st
        | .BlockStart => blockStart tokens st
        | .BlockEnd => blockEnd tokens st
        | .EnumStart => enumStart tokens st
        | .EnumLoop => listLoop tokens st enumMemberList
        | .EnumItem => enumItem tokens st
        | .EnumEnd => enumEnd tokens st
      match r with
      | .ok st2 => parseLoop tokens fuel st2
      | .error .panic => .panic
      | .error .timeout => .timeout

/-- Parser::parse for a given fuel: skip the FileStart sentinel, seed the
stack with StatementLoop and run the loop (Parser::new initializes every
counter to zero). -/
def parseRun (tokens : List Token) (fuel : Nat) : PResult :=
  parseLoop tokens fuel ⟨[], [], 1, 0, 0, [⟨.StatementLoop, false⟩]⟩

/-- parse entry point with a fuel budget sufficient for the concrete runs
considered here. -/
def parseTokens (tokens : List Token) : PResult :=
  parseRun tokens (16 * tokens.length + 64)

/-- Tokens of a lexer result, for feeding the parser in the pipeline. -/
def tokensOf (r : LexResult) : List Token :=
  match r with
  | .ok out => out.tokens
  | _ => []

/-- Mismatch flag of a lexer result; aborted runs report true. -/
def flagOf (r : LexResult) : Bool :=
  match r with
  | .ok out => out.hasMismatchedBrackets
  | _ => true

/-- Binary-search loop of TokenizedText::find_line_index: narrow [left, right)
until empty, moving left past every line whose start is at most the position.
The gap shrinks every iteration, so the fuel passed at the call site (line
count + 1) is always sufficient; every probed index is below right and hence
within the line arena. -/
def flSearch (lines : List Line) (position : Nat) : Nat → Nat → Nat → Except Abort Nat
  | 0, _, _ => .error .timeout
  | fuel + 1, left, right =>
    if left < right then
      let mid := (left + right) / 2
      if (lines.getD mid ⟨0, 0⟩).start ≤ position then
        flSearch lines position fuel (mid + 1) right
      else flSearch lines position fuel left mid
    else .ok left

/-- TokenizedText::find_line_index: binary search plus the checked_sub
(which panics when left is zero) and the step off the synthetic final line. -/
def findLineIndex (tt : LexOutput) (position : Nat) : Except Abort Nat := do
  let left ← flSearch tt.lines position (tt.lines.length + 1) 0 tt.lines.length
  if left = 0 then .error .panic
  else
    let index := left - 1
    let isLast := index = tt.lines.length - 1
    return if isLast && index ≠ 0 && tt.lastLineInserted then index - 1 else index

/-- TokenizedText::get_column_number: the token's start offset plus the
located line's start offset plus one, in 32-bit arithmetic. -/
def getColumnNumber (tt : LexOutput) (token : Nat) : Except Abort Nat := do
  let t ← tokenGet tt.tokens token
  let li ← findLineIndex tt t.start
  let line := tt.lines.getD li ⟨0, 0⟩
  return (t.start + line.start + 1) % 2 ^ 32

/-! ## Delimiter-pairing invariant

The properties below track the lexer fields that the bracket-balancing
logic touches: the token list, the open-delimiter stack and the mismatch
flag.  They are stated for states whose mismatch flag is still clear. -/

/-- The open-delimiter stack (most recent first) holds strictly decreasing
indices of open-delimiter tokens whose payload is still zero. -/
def StackOk (tokens : List Token) (stack : List Nat) : Prop :=
  List.Pairwise (fun a b => b < a) stack ∧
  ∀ i ∈ stack, i < tokens.length ∧
    isOpenDelimiter (tokens.getD i dTok).kind = true ∧
    (tokens.getD i dTok).payload = 0

/-- Every open-delimiter token with a nonzero payload points at a matching
close delimiter that points back at it. -/
def OpenMatched (tokens : List Token) : Prop :=
  ∀ j, j < tokens.length →
    isOpenDelimiter (tokens.getD j dTok).kind = true →
    (tokens.getD j dTok).payload ≠ 0 →
    (tokens.getD j dTok).payload < tokens.length ∧
    isCloseDelimiter (tokens.getD (tokens.getD j dTok).payload dTok).kind = true ∧
    isMatchingDelimiter (tokens.getD j dTok).kind
      (tokens.getD (tokens.getD j dTok).payload dTok).kind = true ∧
    (tokens.getD (tokens.getD j dTok).payload dTok).payload = j

/-- The lexer invariant: while the mismatch flag is clear, the stack is
well-formed and all patched open delimiters are correctly paired. -/
def LexInv (st : LexState) : Prop :=
  st.hasMismatchedBrackets = false →
    StackOk st.tokens st.openDelimiters ∧ OpenMatched st.tokens

/-- Effect of one main-loop handler on the delimiter-related fields: leave
them unchanged, append a token that is not an unpatched open delimiter,
append an open delimiter and push its index, or append a close delimiter and
run handle_close_delimiter on it. -/
inductive DelimStep : LexState → LexState → Prop where
  | same : {st st' : LexState} → st'.tokens = st.tokens →
      st'.openDelimiters = st.openDelimiters →
      st'.hasMismatchedBrackets = st.hasMismatchedBrackets →
      DelimStep st st'
  | append : {st st' : LexState} → (t : Token) →
      (t.payload = 0 ∨ isOpenDelimiter t.kind = false) →
      st'.tokens = st.tokens ++ [t] →
      st'.openDelimiters = st.openDelimiters →
      st'.hasMismatchedBrackets = st.hasMismatchedBrackets →
      DelimStep st st'
  | push : {st st' : LexState} → (t : Token) →
      isOpenDelimiter t.kind = true → t.payload = 0 →
      st'.tokens = st.tokens ++ [t] →
      st'.openDelimiters = st.tokens.length :: st.openDelimiters →
      st'.hasMismatchedBrackets = st.hasMismatchedBrackets →
      DelimStep st st'
  | close : {st st' : LexState} → (stMid : LexState) → (t : Token) →
      isCloseDelimiter t.kind = true → t.payload = 0 →
      stMid.tokens = st.tokens ++ [t] →
      stMid.openDelimiters = st.openDelimiters →
      stMid.hasMismatchedBrackets = st.hasMismatchedBrackets →
      st'.tokens = (handleCloseDelimiter stMid st.tokens.length).tokens →
      st'.openDelimiters = (handleCloseDelimiter stMid st.tokens.length).openDelimiters →
      st'.hasMismatchedBrackets =
        (handleCloseDelimiter stMid st.tokens.length).hasMismatchedBrackets →
      DelimStep st st'

/-! ## Claim theorems: concrete lexer behaviour -/

/-- C1: what the lexer actually does on `>>=` and its relatives.  The source
reuses lex_byte_and_equals after already stepping past the second shift
byte, so the `=` test looks one byte too far: `>>=` lexes as a single
RightShift token consuming all three bytes, `<<=` as LeftShift, and
RightShiftAssign is only produced by the four-byte input `>>==`.  This
refutes the claimed strict maximal munch, under which `>>=` would produce
RightShiftAssign at offset 0 covering three bytes. -/
theorem c1_shift_assign_munch_bug :
    lex (str2bytes ">>=") = .ok ⟨[⟨.FileStart, false, 0, 0⟩,
      ⟨.RightShift, true, 0, 0⟩, ⟨.FileEnd, true, 0, 3⟩], [],
      [⟨0, 0⟩, ⟨3, 0⟩], [], true, false⟩ ∧
    lex (str2bytes "<<=") = .ok ⟨[⟨.FileStart, false, 0, 0⟩,
      ⟨.LeftShift, true, 0, 0⟩, ⟨.FileEnd, true, 0, 3⟩], [],
      [⟨0, 0⟩, ⟨3, 0⟩], [], true, false⟩ ∧
    lex (str2bytes ">>==") = .ok ⟨[⟨.FileStart, false, 0, 0⟩,
      ⟨.RightShiftAssign, true, 0, 0⟩, ⟨.FileEnd, true, 0, 4⟩], [],
      [⟨0, 0⟩, ⟨4, 0⟩], [], true, false⟩ := by
  refine ⟨by decide, by decide, by decide⟩

/-- C3: the lexer does abort on inputs whose final byte is `<`, `>` or `?`
(the handlers advance the cursor and then read the current byte with a
checked index) and on the verbatim string `@""` at end of input (the scan
reads one byte past a quote without a bounds check), refuting the claim
that lex returns normally on these inputs. -/
theorem c3_lexer_panics_at_eof :
    lex (str2bytes "<") = .panic ∧
    lex (str2bytes ">") = .panic ∧
    lex (str2bytes "?") = .panic ∧
    lex (str2bytes "@\"\"") = .panic := by
  refine ⟨by decide, by decide, by decide, by decide⟩

/-- C7 counterexample: on input `(a]` the affected close-delimiter token
does not retain payload 0 — handle_close_delimiter stores the popped open
index in the close token's payload before checking that the pair matches. -/
theorem c7_close_payload_not_zero :
    ¬ ((tokensOf (lex (str2bytes "(a]"))).getD 3 dTok).payload = 0 := by decide

/-- C7 amended: lexing `(a]` yields LeftParen at offset 0, Identifier at
offset 1 and RightSquare at offset 2, sets has_mismatched_brackets, leaves
the open token's payload 0, and stores the open token's index 1 in the
close token's payload. -/
theorem c7_mismatched_bracket_tokens :
    lex (str2bytes "(a]") = .ok ⟨[⟨.FileStart, false, 0, 0⟩,
      ⟨.LeftParen, true, 0, 0⟩, ⟨.Identifier, false, 0, 1⟩,
      ⟨.RightSquare, false, 1, 2⟩, ⟨.FileEnd, true, 0, 3⟩], [],
      [⟨0, 0⟩, ⟨3, 0⟩], [], true, true⟩ := by decide

/-- C6 counterexample: on input `(` the lexer finishes with
has_mismatched_brackets still false although the open parenthesis was never
closed; its payload is 0 and token 0 (FileStart) is not a close delimiter,
so the claimed pairing property fails for this open delimiter. -/
theorem c6_unclosed_open_not_flagged :
    flagOf (lex (str2bytes "(")) = false ∧
    isOpenDelimiter ((tokensOf (lex (str2bytes "("))).getD 1 dTok).kind = true ∧
    ((tokensOf (lex (str2bytes "("))).getD 1 dTok).payload = 0 ∧
    isCloseDelimiter ((tokensOf (lex (str2bytes "("))).getD
      ((tokensOf (lex (str2bytes "("))).getD 1 dTok).payload dTok).kind = false := by
  refine ⟨by decide, by decide, by decide, by decide⟩

/-! ## Claim theorems: concrete parser behaviour -/

/-- C8: on the token stream of `{` (a block whose closing brace is absent),
the BlockEnd handler reaches eat_or_panic with FileEnd as the current token
and the parser aborts instead of recovering. -/
theorem c8_block_end_panics :
    parseTokens (tokensOf (lex (str2bytes "\x7b"))) = .panic := by decide

/-- C5: on the token stream of `enum` (FileStart, Enum, FileEnd), eat_expect
advances the cursor past the FileEnd sentinel at index 2 and the following
read of token index 3 is outside the token arena, so the parse aborts —
refuting the claim that the cursor never exceeds the FileEnd index and that
the parser never reads past FileEnd. -/
theorem c5_cursor_runs_past_file_end :
    ((tokensOf (lex (str2bytes "enum"))).getD 2 dTok).kind = TokenKind.FileEnd ∧
    (tokensOf (lex (str2bytes "enum"))).length = 3 ∧
    parseTokens (tokensOf (lex (str2bytes "enum"))) = .panic := by
  refine ⟨by decide, by decide, by decide⟩

/-- C4: on the token stream of `{}` the parse completes with a balanced
event list (one Start, one End), but the final depth counter is 1, not 0 —
emit_end computes depth.checked_sub(1) and discards the result, so the
depth counter is never decremented. -/
theorem c4_depth_never_decremented :
    parseTokens (tokensOf (lex (str2bytes "\x7b\x7d"))) = .ok ⟨[.start .Block,
      .leaf 1 .LeftBrace, .leaf 2 .RightBrace, .stop], [], 3, 0, 1, []⟩ := by decide

/-- C9: parsing the token stream of `enum E { A, }` produces exactly the
twelve events Start(EnumDecl), Leaf(Enum), Leaf(Identifier),
Start(EnumBlock), Leaf(LeftBrace), Start(EnumMember), Leaf(Identifier),
End, Leaf(Comma), Leaf(RightBrace), End, End, with no Missing or
Unexpected events. -/
theorem c9_enum_trailing_comma_events :
    parseTokens (tokensOf (lex (str2bytes "enum E \x7b A, \x7d"))) = .ok
      ⟨[.start .EnumDecl, .leaf 1 .Enum, .leaf 2 .Identifier,
        .start .EnumBlock, .leaf 3 .LeftBrace, .start .EnumMember,
        .leaf 4 .Identifier, .stop, .leaf 5 .Comma, .leaf 6 .RightBrace,
        .stop, .stop], [], 7, 0, 3, []⟩ := by decide

/-! ## Claim C2: divergence on an unterminated block comment -/

/-- On the two-byte input `/*`, one outer iteration of the block-comment
loop leaves the cursor at 1 without breaking, so the loop never finishes
for any fuel. -/
theorem bcOuter_stall : ∀ (fuel : Nat) (st : LexState), st.cursor = 1 →
    bcOuter [47, 42] 0 fuel st = .error .timeout := by
  intro fuel
  induction fuel with
  | zero => intro st _; rfl
  | succ n ih =>
    intro st h
    unfold bcOuter
    rw [h]
    have hb : bcInner [47, 42] (List.length [47, 42] + 1) 1 = 1 := by decide
    simp only [hb]
    norm_num
    exact ih _ rfl

/-- C2: the lexer does not terminate on the input `/*` — for every fuel
budget the run is still inside the block-comment loop, refuting the claim
that lex terminates for every input buffer with an unterminated block
comment tolerated silently. -/
theorem c2_unterminated_block_comment_diverges :
    ∀ fuel, lexRun (str2bytes "/*") fuel = .timeout := by
  have he : str2bytes "/*" = [47, 42] := by decide
  intro fuel
  rw [he]
  cases fuel with
  | zero => rfl
  | succ n =>
    show lexLoop [47, 42] (n + 1) _ = .timeout
    have hS : lexFileStart [47, 42]
        { lexInit with
          lines := (makeLines [47, 42]).1
          lastLineInserted := (makeLines [47, 42]).2 } =
        (⟨[⟨.FileStart, false, 0, 0⟩], [], [⟨0, 0⟩, ⟨2, 0⟩], [], true,
          0, 0, [], true, false⟩ : LexState) := by decide
    rw [hS]
    unfold lexLoop
    norm_num
    have hstep : lexStep [47, 42] n (⟨[⟨.FileStart, false, 0, 0⟩], [],
        [⟨0, 0⟩, ⟨2, 0⟩], [], true, 0, 0, [], true, false⟩ : LexState) =
        bcOuter [47, 42] 0 n (⟨[⟨.FileStart, false, 0, 0⟩], [],
        [⟨0, 0⟩, ⟨2, 0⟩], [], true, 1, 0, [], true, false⟩ : LexState) := rfl
    rw [hstep, bcOuter_stall n _ rfl]

/-! ## Claim C6: the delimiter-pairing invariant -/

theorem open_close_disjoint (k : TokenKind) (h : isOpenDelimiter k = true) :
    isCloseDelimiter k = false := by
  cases k <;> revert h <;> decide

theorem setPayload_kind (t : Token) (p : Nat) : (t.setPayload p).kind = t.kind := rfl

theorem setPayload_payload (t : Token) (p : Nat) :
    (t.setPayload p).payload = p % 2 ^ 23 := rfl

theorem set_append_left {α : Type _} (l₁ l₂ : List α) (n : Nat) (b : α)
    (h : n < l₁.length) : (l₁ ++ l₂).set n b = l₁.set n b ++ l₂ := by
  induction l₁ generalizing n with
  | nil => exact absurd h (Nat.not_lt_zero n)
  | cons a l ih =>
    cases n with
    | zero => rfl
    | succ m =>
      simp only [List.cons_append, List.set]
      exact congrArg (List.cons a) (ih m (Nat.lt_of_succ_lt_succ h))

theorem set_append_len {α : Type _} (l : List α) (a b : α) :
    (l ++ [a]).set l.length b = l ++ [b] := by
  induction l with
  | nil => rfl
  | cons x l ih =>
    simp only [List.cons_append, List.length_cons, List.set]
    exact congrArg (List.cons x) ih

theorem getD_set_eq {α : Type _} (l : List α) (n : Nat) (b d : α)
    (h : n < l.length) : (l.set n b).getD n d = b := by
  rw [List.getD_eq_getD_get?, List.get?_set_eq_of_lt _ h]
  rfl

theorem getD_set_ne {α : Type _} (l : List α) (m n : Nat) (b d : α)
    (h : m ≠ n) : (l.set m b).getD n d = l.getD n d := by
  rw [List.getD_eq_getD_get?, List.get?_set_ne _ _ h, ← List.getD_eq_getD_get?]

theorem getD_append_len {α : Type _} (l : List α) (a d : α) :
    (l ++ [a]).getD l.length d = a := by
  rw [List.getD_append_right _ _ _ _ (Nat.le_refl _), Nat.sub_self]
  rfl

theorem stackOk_append {toks : List Token} {stack : List Nat} (t : Token)
    (h : StackOk toks stack) : StackOk (toks ++ [t]) stack := by
  refine ⟨h.1, fun i hi => ?_⟩
  obtain ⟨h1, h2, h3⟩ := h.2 i hi
  refine ⟨?_, ?_, ?_⟩
  · simp only [List.length_append, List.length_singleton]
    omega
  · rw [List.getD_append _ _ _ _ h1]; exact h2
  · rw [List.getD_append _ _ _ _ h1]; exact h3

theorem openMatched_append {toks : List Token} (t : Token)
    (hOM : OpenMatched toks) (ht : t.payload = 0 ∨ isOpenDelimiter t.kind = false) :
    OpenMatched (toks ++ [t]) := by
  intro j hj hopen hpl
  have hlen : (toks ++ [t]).length = toks.length + 1 := by
    simp [List.length_append]
  rw [hlen] at hj
  rcases Nat.lt_succ_iff_lt_or_eq.mp hj with hlt | heq
  · rw [List.getD_append _ _ _ _ hlt] at hopen hpl ⊢
    obtain ⟨h1, h2, h3, h4⟩ := hOM j hlt hopen hpl
    rw [List.getD_append _ _ _ _ h1]
    exact ⟨by rw [hlen]; omega, h2, h3, h4⟩
  · subst heq
    rw [getD_append_len] at hopen hpl
    rcases ht with h0 | hno
    · exact absurd h0 hpl
    · rw [hopen] at hno; cases hno

theorem stackOk_push {toks : List Token} {stack : List Nat} (t : Token)
    (hopen : isOpenDelimiter t.kind = true) (hpl : t.payload = 0)
    (h : StackOk toks stack) : StackOk (toks ++ [t]) (toks.length :: stack) := by
  refine ⟨List.pairwise_cons.mpr ⟨fun b hb => (h.2 b hb).1, h.1⟩, fun i hi => ?_⟩
  rcases List.mem_cons.mp hi with rfl | hmem
  · refine ⟨?_, ?_, ?_⟩
    · simp [List.length_append]
    · rw [getD_append_len]; exact hopen
    · rw [getD_append_len]; exact hpl
  · exact (stackOk_append t h).2 i hmem

theorem handleClose_tokens_length (st : LexState) (c : Nat) :
    (handleCloseDelimiter st c).tokens.length = st.tokens.length := by
  unfold handleCloseDelimiter
  split
  · rfl
  · dsimp only
    split <;> simp [List.length_set]

/-- Running handle_close_delimiter on a state whose token list ends in the
just-added close token preserves the delimiter invariant whenever the
mismatch flag comes out clear. -/
theorem closeInv (stMid : LexState) (toks : List Token) (t : Token)
    (hmt : stMid.tokens = toks ++ [t])
    (hclose : isCloseDelimiter t.kind = true)
    (hb : toks.length + 1 < 2 ^ 23)
    (hSM : stMid.hasMismatchedBrackets = false →
      StackOk toks stMid.openDelimiters ∧ OpenMatched toks)
    (hf : (handleCloseDelimiter stMid toks.length).hasMismatchedBrackets = false) :
    StackOk (handleCloseDelimiter stMid toks.length).tokens
      (handleCloseDelimiter stMid toks.length).openDelimiters ∧
    OpenMatched (handleCloseDelimiter stMid toks.length).tokens := by
  rcases hsd : stMid.openDelimiters with _ | ⟨openIdx, rest⟩
  · have hnil : handleCloseDelimiter stMid toks.length =
        { stMid with hasMismatchedBrackets := true } := by
      unfold handleCloseDelimiter
      rw [hsd]
    rw [hnil] at hf
    exact absurd hf (by simp)
  · have hgetc : stMid.tokens.getD toks.length dTok = t := by
      rw [hmt]; exact getD_append_len toks t dTok
    have hset1 : stMid.tokens.set toks.length (t.setPayload openIdx) =
        toks ++ [t.setPayload openIdx] := by
      rw [hmt]; exact set_append_len toks t _
    have hR : handleCloseDelimiter stMid toks.length =
        if isMatchingDelimiter
            ((toks ++ [t.setPayload openIdx]).getD openIdx dTok).kind
            (t.setPayload openIdx).kind then
          { stMid with
            tokens := (toks ++ [t.setPayload openIdx]).set openIdx
              (((toks ++ [t.setPayload openIdx]).getD openIdx dTok).setPayload
                toks.length)
            openDelimiters := rest }
        else
          { stMid with
            tokens := toks ++ [t.setPayload openIdx]
            openDelimiters := rest
            hasMismatchedBrackets := true } := by
      unfold handleCloseDelimiter
      rw [hsd]
      simp only [hgetc, hset1]
    rw [hR] at hf ⊢
    by_cases hmatch : isMatchingDelimiter
        ((toks ++ [t.setPayload openIdx]).getD openIdx dTok).kind
        (t.setPayload openIdx).kind = true
    · rw [if_pos hmatch] at hf ⊢
      have hmf : stMid.hasMismatchedBrackets = false := hf
      obtain ⟨hS, hM⟩ := hSM hmf
      have hmemo : openIdx ∈ stMid.openDelimiters := by
        rw [hsd]; exact List.mem_cons_self _ _
      obtain ⟨hoi, hok, hop⟩ := hS.2 openIdx hmemo
      have hopen1 : (toks ++ [t.setPayload openIdx]).getD openIdx dTok =
          toks.getD openIdx dTok := List.getD_append _ _ _ _ hoi
      rw [hopen1] at hmatch ⊢
      have hmask_c : toks.length % 2 ^ 23 = toks.length :=
        Nat.mod_eq_of_lt (by omega)
      have hmask_o : openIdx % 2 ^ 23 = openIdx :=
        Nat.mod_eq_of_lt (by omega)
      have hO2pl : ((toks.getD openIdx dTok).setPayload toks.length).payload =
          toks.length := by rw [setPayload_payload, hmask_c]
      have hC2pl : (t.setPayload openIdx).payload = openIdx := by
        rw [setPayload_payload, hmask_o]
      have hTeq : (toks ++ [t.setPayload openIdx]).set openIdx
          ((toks.getD openIdx dTok).setPayload toks.length) =
          toks.set openIdx ((toks.getD openIdx dTok).setPayload toks.length) ++
            [t.setPayload openIdx] := set_append_left _ _ _ _ hoi
      show StackOk _ rest ∧ OpenMatched _
      rw [hTeq]
      have hlen1 : (toks.set openIdx
          ((toks.getD openIdx dTok).setPayload toks.length)).length =
          toks.length := List.length_set _ _ _
      have hlenT : (toks.set openIdx
          ((toks.getD openIdx dTok).setPayload toks.length) ++
            [t.setPayload openIdx]).length = toks.length + 1 := by
        simp [List.length_append, hlen1]
      have g2 : (toks.set openIdx
          ((toks.getD openIdx dTok).setPayload toks.length) ++
            [t.setPayload openIdx]).getD openIdx dTok =
          (toks.getD openIdx dTok).setPayload toks.length := by
        rw [List.getD_append _ _ _ _ (by rw [hlen1]; exact hoi)]
        exact getD_set_eq _ _ _ _ hoi
      have g3 : (toks.set openIdx
          ((toks.getD openIdx dTok).setPayload toks.length) ++
            [t.setPayload openIdx]).getD toks.length dTok =
          t.setPayload openIdx := by
        have h0 := getD_append_len (toks.set openIdx
          ((toks.getD openIdx dTok).setPayload toks.length))
          (t.setPayload openIdx) dTok
        rw [hlen1] at h0
        exact h0
      have g1 : ∀ j, j ≠ openIdx → j < toks.length →
          (toks.set openIdx
            ((toks.getD openIdx dTok).setPayload toks.length) ++
              [t.setPayload openIdx]).getD j dTok = toks.getD j dTok := by
        intro j hne hj
        rw [List.getD_append _ _ _ _ (by rw [hlen1]; exact hj)]
        exact getD_set_ne _ _ _ _ _ (Ne.symm hne)
      have hpw := List.pairwise_cons.mp (hsd ▸ hS.1)
      constructor
      · refine ⟨hpw.2, fun i hi => ?_⟩
        obtain ⟨hi1, hi2, hi3⟩ := hS.2 i (by rw [hsd]; exact List.mem_cons_of_mem _ hi)
        have hne : i ≠ openIdx := Nat.ne_of_lt (hpw.1 i hi)
        rw [g1 i hne hi1]
        exact ⟨by rw [hlenT]; omega, hi2, hi3⟩
      · intro j hj hjo hjp
        rw [hlenT] at hj
        by_cases hjc : j = toks.length
        · subst hjc
          rw [g3] at hjo
          have hdis := open_close_disjoint _ hjo
          rw [setPayload_kind] at hdis
          rw [hclose] at hdis
          cases hdis
        · have hjlt : j < toks.length := by omega
          by_cases hjoi : j = openIdx
          · subst hjoi
            rw [g2] at hjo hjp ⊢
            rw [hO2pl]
            refine ⟨by rw [hlenT]; omega, ?_, ?_, ?_⟩
            · rw [g3, setPayload_kind]; exact hclose
            · rw [g3, setPayload_kind, setPayload_kind]; exact hmatch
            · rw [g3, hC2pl]
          · rw [g1 j hjoi hjlt] at hjo hjp ⊢
            obtain ⟨hp1, hp2, hp3, hp4⟩ := hM j hjlt hjo hjp
            have hpne_o : (toks.getD j dTok).payload ≠ openIdx := by
              intro he
              rw [he] at hp2
              have hdis := open_close_disjoint _ hok
              rw [hp2] at hdis
              cases hdis
            rw [g1 _ hpne_o hp1]
            exact ⟨by rw [hlenT]; omega, hp2, hp3, hp4⟩
    · rw [if_neg hmatch] at hf
      exact absurd hf (by simp)

/-- A main-loop handler step preserves the delimiter invariant as long as
the resulting token count is still below the payload bound. -/
theorem delimStep_inv {st st' : LexState} (h : DelimStep st st')
    (hb : st'.tokens.length < 2 ^ 23) (hInv : LexInv st) : LexInv st' := by
  cases h with
  | same h1 h2 h3 =>
    intro hf
    rw [h1, h2]
    exact hInv (by rw [← h3]; exact hf)
  | append t ht h1 h2 h3 =>
    intro hf
    rw [h1, h2]
    obtain ⟨S, M⟩ := hInv (by rw [← h3]; exact hf)
    exact ⟨stackOk_append t S, openMatched_append t M ht⟩
  | push t hopen hpl h1 h2 h3 =>
    intro hf
    rw [h1, h2]
    obtain ⟨S, M⟩ := hInv (by rw [← h3]; exact hf)
    exact ⟨stackOk_push t hopen hpl S, openMatched_append t M (Or.inl hpl)⟩
  | close stMid t hclose hpl hm1 hm2 hm3 h1 h2 h3 =>
    intro hf
    have hfR : (handleCloseDelimiter stMid st.tokens.length).hasMismatchedBrackets =
        false := by rw [← h3]; exact hf
    have hlenR := handleClose_tokens_length stMid st.tokens.length
    have hmlen : stMid.tokens.length = st.tokens.length + 1 := by
      rw [hm1]; simp
    have hbb : st.tokens.length + 1 < 2 ^ 23 := by
      rw [h1] at hb
      omega
    have hSM : stMid.hasMismatchedBrackets = false →
        StackOk st.tokens stMid.openDelimiters ∧ OpenMatched st.tokens := by
      intro hmf
      obtain ⟨S, M⟩ := hInv (by rw [← hm3]; exact hmf)
      rw [hm2]
      exact ⟨S, M⟩
    have hres := closeInv stMid st.tokens t hm1 hclose hbb hSM hfR
    rw [h1, h2]
    exact hres

/-- A handler step never removes tokens. -/
theorem delimStep_le {st st' : LexState} (h : DelimStep st st') :
    st.tokens.length ≤ st'.tokens.length := by
  cases h with
  | same h1 _ _ => rw [h1]
  | append t _ h1 _ _ => rw [h1]; simp
  | push t _ _ h1 _ _ => rw [h1]; simp
  | close stMid t _ _ hm1 _ _ h1 _ _ =>
    rw [h1, handleClose_tokens_length, hm1]
    simp

/-! ### Handler effects on the delimiter fields -/

theorem delimStep_addToken (st : LexState) (kind : TokenKind) (start : Nat) :
    DelimStep st (addToken st kind 0 start).1 :=
  DelimStep.append _ (Or.inl (Nat.zero_mod _)) rfl rfl rfl

theorem delimStep_cursor (st : LexState) (c : Nat) :
    DelimStep st { st with cursor := c } :=
  DelimStep.same rfl rfl rfl

theorem delimStep_lexByte (st : LexState) (kind : TokenKind) :
    DelimStep st (lexByte st kind) :=
  DelimStep.append _ (Or.inl (Nat.zero_mod _)) rfl rfl rfl

theorem delimStep_lexByteAndEquals (text : List Nat) (st : LexState) (start : Nat)
    (k1 k2 : TokenKind) : DelimStep st (lexByteAndEquals text st start k1 k2) := by
  unfold lexByteAndEquals
  split
  · exact DelimStep.append _ (Or.inl (Nat.zero_mod _)) rfl rfl rfl
  · exact DelimStep.append _ (Or.inl (Nat.zero_mod _)) rfl rfl rfl

theorem delimStep_lexError (text : List Nat) (st : LexState) :
    DelimStep st (lexError text st) := by
  refine DelimStep.append _ ?_ rfl rfl rfl
  exact Or.inr rfl

theorem delimStep_lexHorizontalWhitespace (text : List Nat) (st : LexState) :
    DelimStep st (lexHorizontalWhitespace text st) :=
  DelimStep.same rfl rfl rfl

theorem delimStep_lexVerticalWhitespace (text : List Nat) (st : LexState) :
    DelimStep st (lexVerticalWhitespace text st) :=
  DelimStep.same rfl rfl rfl

theorem delimStep_lexCr (text : List Nat) (st : LexState) :
    DelimStep st (lexCr text st) := by
  unfold lexCr
  split
  · exact DelimStep.same rfl rfl rfl
  · exact DelimStep.same rfl rfl rfl

theorem delimStep_lexNumberLiteralOrDot (text : List Nat) (st : LexState) :
    DelimStep st (lexNumberLiteralOrDot text st) := by
  unfold lexNumberLiteralOrDot
  dsimp only
  rcases hsc : scanNumberOrDot (List.drop st.cursor text) with ⟨len, kind⟩
  dsimp only
  split
  · exact delimStep_lexError text st
  · exact DelimStep.append _ (Or.inl (Nat.zero_mod _)) rfl rfl rfl

theorem delimStep_lexStringLiteral (text : List Nat) (st : LexState) :
    DelimStep st (lexStringLiteral text st) := by
  unfold lexStringLiteral
  dsimp only
  rcases hsc : scanStringLiteral (List.drop st.cursor text) with ⟨len, kind⟩
  dsimp only
  split
  · exact delimStep_lexError text st
  · exact DelimStep.append _ (Or.inl (Nat.zero_mod _)) rfl rfl rfl

theorem delimStep_lexOpenDelimiter (st : LexState) (kind : TokenKind)
    (hk : isOpenDelimiter kind = true) : DelimStep st (lexOpenDelimiter st kind) :=
  DelimStep.push (Token.new kind st.hasLeadingSpace 0 st.cursor) hk
    (Nat.zero_mod _) rfl rfl rfl

theorem delimStep_lexCloseDelimiter (st : LexState) (kind : TokenKind)
    (hk : isCloseDelimiter kind = true) : DelimStep st (lexCloseDelimiter st kind) :=
  DelimStep.close
    { (addToken st kind 0 st.cursor).1 with
      cursor := (addToken st kind 0 st.cursor).1.cursor + 1 }
    (Token.new kind st.hasLeadingSpace 0 st.cursor)
    hk (Nat.zero_mod _) rfl rfl rfl rfl rfl rfl

theorem delimStep_congr {st₁ st₂ st' : LexState}
    (h1 : st₂.tokens = st₁.tokens) (h2 : st₂.openDelimiters = st₁.openDelimiters)
    (h3 : st₂.hasMismatchedBrackets = st₁.hasMismatchedBrackets)
    (h : DelimStep st₂ st') : DelimStep st₁ st' := by
  cases h with
  | same a b c => exact .same (a.trans h1) (b.trans h2) (c.trans h3)
  | append t ht a b c => exact .append t ht (by rw [a, h1]) (b.trans h2) (c.trans h3)
  | push t ho hp a b c =>
    exact .push t ho hp (by rw [a, h1]) (by rw [b, h1, h2]) (c.trans h3)
  | close stMid t hc hp m1 m2 m3 a b c =>
    exact .close stMid t hc hp (by rw [m1, h1]) (m2.trans h2) (m3.trans h3)
      (by rw [a, h1]) (by rw [b, h1]) (by rw [c, h1])

theorem delimStep_lexByteTwiceOrEquals (text : List Nat) (st st' : LexState)
    (k1 k2 k3 : TokenKind) (h : lexByteTwiceOrEquals text st k1 k2 k3 = .ok st') :
    DelimStep st st' := by
  unfold lexByteTwiceOrEquals getByte at h
  cases hg : text.get? st.cursor with
  | none =>
    rw [hg] at h
    simp only [Bind.bind, Except.bind] at h
    cases h
  | some b =>
    rw [hg] at h
    simp only [Bind.bind, Except.bind] at h
    split at h <;> [skip; split at h] <;>
      · injection h with h'
        subst h'
        exact DelimStep.append _ (Or.inl (Nat.zero_mod _)) rfl rfl rfl

theorem delimStep_lexLessThan (text : List Nat) (st st' : LexState)
    (h : lexLessThan text st = .ok st') : DelimStep st st' := by
  unfold lexLessThan getByte at h
  dsimp only at h
  cases hg : text.get? (st.cursor + 1) with
  | none =>
    rw [hg] at h
    simp only [Bind.bind, Except.bind] at h
    cases h
  | some b =>
    rw [hg] at h
    simp only [Bind.bind, Except.bind] at h
    split at h
    · injection h with h'
      subst h'
      refine delimStep_congr ?_ ?_ ?_ (delimStep_lexByteAndEquals text
        { st with cursor := st.cursor + 1 + 1 } st.cursor _ _) <;> rfl
    · split at h <;>
        · injection h with h'
          subst h'
          exact DelimStep.append _ (Or.inl (Nat.zero_mod _)) rfl rfl rfl

theorem delimStep_lexGreaterThan (text : List Nat) (st st' : LexState)
    (h : lexGreaterThan text st = .ok st') : DelimStep st st' := by
  unfold lexGreaterThan getByte at h
  dsimp only at h
  cases hg : text.get? (st.cursor + 1) with
  | none =>
    rw [hg] at h
    simp only [Bind.bind, Except.bind] at h
    cases h
  | some b =>
    rw [hg] at h
    simp only [Bind.bind, Except.bind] at h
    split at h
    · injection h with h'
      subst h'
      refine delimStep_congr ?_ ?_ ?_ (delimStep_lexByteAndEquals text
        { st with cursor := st.cursor + 1 + 1 } st.cursor _ _) <;> rfl
    · split at h <;>
        · injection h with h'
          subst h'
          exact DelimStep.append _ (Or.inl (Nat.zero_mod _)) rfl rfl rfl

theorem delimStep_lexQuestion (text : List Nat) (st st' : LexState)
    (h : lexQuestion text st = .ok st') : DelimStep st st' := by
  unfold lexQuestion getByte at h
  dsimp only at h
  cases hg : text.get? (st.cursor + 1) with
  | none =>
    rw [hg] at h
    simp only [Bind.bind, Except.bind] at h
    cases h
  | some b =>
    rw [hg] at h
    simp only [Bind.bind, Except.bind] at h
    split at h
    · injection h with h'
      subst h'
      refine delimStep_congr ?_ ?_ ?_ (delimStep_lexByteAndEquals text
        { st with cursor := st.cursor + 1 + 1 } st.cursor _ _) <;> rfl
    · injection h with h'
      subst h'
      exact DelimStep.append _ (Or.inl (Nat.zero_mod _)) rfl rfl rfl

theorem delimStep_lexKeywordOrIdentifier (text : List Nat) (st st' : LexState)
    (h : lexKeywordOrIdentifier text st = .ok st') : DelimStep st st' := by
  unfold lexKeywordOrIdentifier getByte at h
  dsimp only at h
  cases hg : text.get? st.cursor with
  | none =>
    rw [hg] at h
    simp only [Bind.bind, Except.bind] at h
    cases h
  | some b =>
    rw [hg] at h
    simp only [Bind.bind, Except.bind] at h
    split at h
    · injection h with h'
      subst h'
      exact delimStep_lexError text st
    · injection h with h'
      subst h'
      refine delimStep_congr ?_ ?_ ?_ (delimStep_addToken _ _ _) <;> rfl

theorem delimStep_openAt {st s : LexState} (h1 : s.tokens = st.tokens)
    (h2 : s.openDelimiters = st.openDelimiters)
    (h3 : s.hasMismatchedBrackets = st.hasMismatchedBrackets)
    (k : TokenKind) (hk : isOpenDelimiter k = true) (start : Nat) :
    DelimStep st
      (handleOpenDelimiter (addToken s k 0 start).1 (addToken s k 0 start).2) := by
  refine DelimStep.push (Token.new k s.hasLeadingSpace 0 start) hk (Nat.zero_mod _)
    ?_ ?_ ?_
  · show s.tokens ++ [_] = st.tokens ++ [_]
    rw [h1]
  · show s.tokens.length :: s.openDelimiters = st.tokens.length :: st.openDelimiters
    rw [h1, h2]
  · exact h3

theorem delimStep_lexAccessor (text : List Nat) (st st' : LexState)
    (h : lexAccessor text st = .ok st') : DelimStep st st' := by
  unfold lexAccessor getByte at h
  dsimp only at h
  cases hg : text.get? (st.cursor + 1) with
  | none =>
    rw [hg] at h
    simp only [Bind.bind, Except.bind] at h
    cases h
  | some b =>
    rw [hg] at h
    simp only [Bind.bind, Except.bind] at h
    injection h with h'
    subst h'
    refine delimStep_openAt ?_ ?_ ?_ _ ?_ st.cursor
    · repeat' split
      all_goals rfl
    · repeat' split
      all_goals rfl
    · repeat' split
      all_goals rfl
    · repeat' split
      all_goals decide

theorem delimStep_lexVerbatimStringLiteral (text : List Nat) (st st' : LexState)
    (h : lexVerbatimStringLiteral text st = .ok st') : DelimStep st st' := by
  unfold lexVerbatimStringLiteral scanVerbatimStringLiteral at h
  dsimp only at h
  cases hv : scanVerbGo (List.drop 1 (List.drop st.cursor text)) 1 with
  | error a =>
    rw [hv] at h
    simp only [Bind.bind, Except.bind] at h
    cases h
  | ok r =>
    rw [hv] at h
    simp only [Bind.bind, Except.bind, pure, Except.pure] at h
    split at h
    · injection h with h'
      subst h'
      exact delimStep_lexError text st
    · injection h with h'
      subst h'
      refine delimStep_congr ?_ ?_ ?_ (delimStep_addToken _ _ _) <;> rfl

theorem bcOuter_view (text : List Nat) (start : Nat) : ∀ (fuel : Nat)
    (st st' : LexState), bcOuter text start fuel st = .ok st' →
    st'.tokens = st.tokens ∧ st'.openDelimiters = st.openDelimiters ∧
      st'.hasMismatchedBrackets = st.hasMismatchedBrackets := by
  intro fuel
  induction fuel with
  | zero =>
    intro st st' h
    simp [bcOuter] at h
  | succ n ih =>
    intro st st' h
    unfold bcOuter at h
    split at h
    · dsimp only at h
      split at h
      · cases h
      · split at h
        · injection h with h'
          subst h'
          exact ⟨rfl, rfl, rfl⟩
        · obtain ⟨a, b, c⟩ := ih _ _ h
          exact ⟨a, b, c⟩
    · injection h with h'
      subst h'
      exact ⟨rfl, rfl, rfl⟩

theorem delimStep_lexCommentOrDivide (text : List Nat) (fuel : Nat) (st st' : LexState)
    (h : lexCommentOrDivide text fuel st = .ok st') : DelimStep st st' := by
  unfold lexCommentOrDivide at h
  split at h
  · injection h with h'
    subst h'
    exact DelimStep.same rfl rfl rfl
  · split at h
    · obtain ⟨a, b, c⟩ := bcOuter_view text st.cursor fuel _ _ h
      exact DelimStep.same a b c
    · injection h with h'
      subst h'
      exact delimStep_lexByteAndEquals _ _ _ _ _

/-- Every successful main-loop handler step is one of the delimiter-field
effects classified by DelimStep. -/
theorem lexStep_delimStep (text : List Nat) (fuel : Nat) (st st' : LexState)
    (h : lexStep text fuel st = .ok st') : DelimStep st st' := by
  unfold lexStep at h
  cases hd : dispatch (text.getD st.cursor 0) <;> rw [hd] at h
  case Error =>
    injection h with h'; subst h'; exact delimStep_lexError text st
  case NewLine =>
    injection h with h'; subst h'; exact delimStep_lexVerticalWhitespace text st
  case Cr =>
    injection h with h'; subst h'; exact delimStep_lexCr text st
  case HorizontalSpace =>
    injection h with h'; subst h'; exact delimStep_lexHorizontalWhitespace text st
  case Exclamation =>
    injection h with h'; subst h'; exact delimStep_lexByteAndEquals _ _ _ _ _
  case Quote =>
    injection h with h'; subst h'; exact delimStep_lexStringLiteral text st
  case IdentifierStart => exact delimStep_lexKeywordOrIdentifier text st st' h
  case Dollar => cases h
  case Hash => cases h
  case Percent =>
    injection h with h'; subst h'; exact delimStep_lexByteAndEquals _ _ _ _ _
  case Ampersand => exact delimStep_lexByteTwiceOrEquals text st st' _ _ _ h
  case ParenOpen =>
    injection h with h'; subst h'; exact delimStep_lexOpenDelimiter st _ (by decide)
  case ParenClose =>
    injection h with h'; subst h'; exact delimStep_lexCloseDelimiter st _ (by decide)
  case Asterisk => exact delimStep_lexByteTwiceOrEquals text st st' _ _ _ h
  case Plus => exact delimStep_lexByteTwiceOrEquals text st st' _ _ _ h
  case Comma =>
    injection h with h'; subst h'; exact delimStep_lexByte st _
  case Minus => exact delimStep_lexByteTwiceOrEquals text st st' _ _ _ h
  case Dot =>
    injection h with h'; subst h'; exact delimStep_lexNumberLiteralOrDot text st
  case Slash => exact delimStep_lexCommentOrDivide text fuel st st' h
  case DigitZero =>
    injection h with h'; subst h'; exact delimStep_lexNumberLiteralOrDot text st
  case DigitNonZero =>
    injection h with h'; subst h'; exact delimStep_lexNumberLiteralOrDot text st
  case Colon =>
    injection h with h'; subst h'; exact delimStep_lexByte st _
  case Semicolon =>
    injection h with h'; subst h'; exact delimStep_lexByte st _
  case LessThan => exact delimStep_lexLessThan text st st' h
  case Equal =>
    injection h with h'; subst h'; exact delimStep_lexByteAndEquals _ _ _ _ _
  case GreaterThan => exact delimStep_lexGreaterThan text st st' h
  case Question => exact delimStep_lexQuestion text st st' h
  case At => exact delimStep_lexVerbatimStringLiteral text st st' h
  case BracketOpen => exact delimStep_lexAccessor text st st' h
  case BracketClose =>
    injection h with h'; subst h'; exact delimStep_lexCloseDelimiter st _ (by decide)
  case Caret =>
    injection h with h'; subst h'; exact delimStep_lexByteAndEquals _ _ _ _ _
  case BraceOpen =>
    injection h with h'; subst h'; exact delimStep_lexOpenDelimiter st _ (by decide)
  case Pipe => exact delimStep_lexByteTwiceOrEquals text st st' _ _ _ h
  case BraceClose =>
    injection h with h'; subst h'; exact delimStep_lexCloseDelimiter st _ (by decide)
  case Tilde =>
    injection h with h'; subst h'; exact delimStep_lexByteAndEquals _ _ _ _ _
  case Unicode => cases h

theorem lexLoop_ok_bound (text : List Nat) : ∀ (fuel : Nat) (st : LexState)
    (out : LexOutput), lexLoop text fuel st = .ok out →
    out.tokens.length < 2 ^ 23 := by
  intro fuel
  induction fuel with
  | zero => intro st out h; cases h
  | succ n ih =>
    intro st out h
    unfold lexLoop at h
    split at h
    · cases hs : lexStep text n st with
      | ok st2 => rw [hs] at h; exact ih st2 out h
      | error a => rw [hs] at h; cases a <;> cases h
    · dsimp only at h
      split at h
      · cases h
      · next hlt =>
        injection h with h'
        subst h'
        show (lexFileEnd st).tokens.length < 2 ^ 23
        unfold tokenMaxIndex at hlt
        have hp : (2 : Nat) ^ 23 = 8388608 := by norm_num
        rw [hp] at hlt ⊢
        omega

theorem lexLoop_mono (text : List Nat) : ∀ (fuel : Nat) (st : LexState)
    (out : LexOutput), lexLoop text fuel st = .ok out →
    st.tokens.length ≤ out.tokens.length := by
  intro fuel
  induction fuel with
  | zero => intro st out h; cases h
  | succ n ih =>
    intro st out h
    unfold lexLoop at h
    split at h
    · cases hs : lexStep text n st with
      | ok st2 =>
        rw [hs] at h
        exact le_trans (delimStep_le (lexStep_delimStep text n st st2 hs))
          (ih st2 out h)
      | error a => rw [hs] at h; cases a <;> cases h
    · dsimp only at h
      split at h
      · cases h
      · injection h with h'
        subst h'
        show st.tokens.length ≤ (lexFileEnd st).tokens.length
        show st.tokens.length ≤
          (st.tokens ++ [Token.new .FileEnd true 0 st.cursor]).length
        simp

theorem lexLoop_inv (text : List Nat) : ∀ (fuel : Nat) (st : LexState)
    (out : LexOutput), lexLoop text fuel st = .ok out → LexInv st →
    out.hasMismatchedBrackets = false → OpenMatched out.tokens := by
  intro fuel
  induction fuel with
  | zero => intro st out h; cases h
  | succ n ih =>
    intro st out h hInv
    unfold lexLoop at h
    split at h
    · cases hs : lexStep text n st with
      | ok st2 =>
        rw [hs] at h
        have hstep := lexStep_delimStep text n st st2 hs
        have hb : st2.tokens.length < 2 ^ 23 :=
          lt_of_le_of_lt (lexLoop_mono text n st2 out h)
            (lexLoop_ok_bound text n st2 out h)
        exact ih st2 out h (delimStep_inv hstep hb hInv)
      | error a => rw [hs] at h; cases a <;> cases h
    · dsimp only at h
      split at h
      · cases h
      · injection h with h'
        subst h'
        intro hf
        have hsf : st.hasMismatchedBrackets = false := hf
        obtain ⟨S, M⟩ := hInv hsf
        show OpenMatched (st.tokens ++ [Token.new .FileEnd true 0 st.cursor])
        exact openMatched_append _ M (Or.inl (Nat.zero_mod _))

/-- C6 amended: for every input on which lexing completes with
has_mismatched_brackets still false, every open-delimiter token whose
payload was patched (payload nonzero) points at a close delimiter of the
matching kind whose payload points back at it.  Open delimiters left
unclosed at end of input keep payload 0 and do not set the flag, which is
why the original claim fails (see the counterexample on `(`). -/
theorem c6_matched_opens_paired (text : List Nat) (fuel : Nat) (out : LexOutput)
    (h : lexRun text fuel = .ok out) (hf : out.hasMismatchedBrackets = false) :
    ∀ j, j < out.tokens.length →
      isOpenDelimiter (out.tokens.getD j dTok).kind = true →
      (out.tokens.getD j dTok).payload ≠ 0 →
      (out.tokens.getD j dTok).payload < out.tokens.length ∧
      isCloseDelimiter
        (out.tokens.getD (out.tokens.getD j dTok).payload dTok).kind = true ∧
      isMatchingDelimiter (out.tokens.getD j dTok).kind
        (out.tokens.getD (out.tokens.getD j dTok).payload dTok).kind = true ∧
      (out.tokens.getD (out.tokens.getD j dTok).payload dTok).payload = j := by
  unfold lexRun at h
  dsimp only at h
  have hInv0 : LexInv (lexFileStart text
      { lexInit with
        lines := (makeLines text).1
        lastLineInserted := (makeLines text).2 }) := by
    intro _
    have htok : (lexFileStart text
        { lexInit with
          lines := (makeLines text).1
          lastLineInserted := (makeLines text).2 }).tokens =
        [Token.new .FileStart false 0 0] := rfl
    constructor
    · refine ⟨List.Pairwise.nil, fun i hi => absurd hi ?_⟩
      show i ∉ ([] : List Nat)
      exact List.not_mem_nil i
    · intro j hj hopen hne
      rw [htok] at hj hopen
      have hj0 : j = 0 := by
        simp only [List.length_singleton] at hj
        omega
      subst hj0
      exact absurd hopen (by decide)
  exact lexLoop_inv text fuel _ out h hInv0 hf

theorem c6_matched_opens_paired_witness :
    lexRun (str2bytes "(a)") 14 = .ok ⟨[⟨.FileStart, false, 0, 0⟩,
      ⟨.LeftParen, true, 3, 0⟩, ⟨.Identifier, false, 0, 1⟩,
      ⟨.RightParen, false, 1, 2⟩, ⟨.FileEnd, true, 0, 3⟩], [],
      [⟨0, 0⟩, ⟨3, 0⟩], [], true, false⟩ ∧
    ((tokensOf (lexRun (str2bytes "(a)") 14)).getD 1 dTok).payload <
      (tokensOf (lexRun (str2bytes "(a)") 14)).length ∧
    isCloseDelimiter ((tokensOf (lexRun (str2bytes "(a)") 14)).getD
      ((tokensOf (lexRun (str2bytes "(a)") 14)).getD 1 dTok).payload
        dTok).kind = true ∧
    isMatchingDelimiter ((tokensOf (lexRun (str2bytes "(a)") 14)).getD 1 dTok).kind
      ((tokensOf (lexRun (str2bytes "(a)") 14)).getD
        ((tokensOf (lexRun (str2bytes "(a)") 14)).getD 1 dTok).payload
          dTok).kind = true ∧
    ((tokensOf (lexRun (str2bytes "(a)") 14)).getD
      ((tokensOf (lexRun (str2bytes "(a)") 14)).getD 1 dTok).payload
        dTok).payload = 1 := by
  refine ⟨by decide, ?_⟩
  have hres := c6_matched_opens_paired (str2bytes "(a)") 14
    ⟨[⟨.FileStart, false, 0, 0⟩, ⟨.LeftParen, true, 3, 0⟩,
      ⟨.Identifier, false, 0, 1⟩, ⟨.RightParen, false, 1, 2⟩,
      ⟨.FileEnd, true, 0, 3⟩], [], [⟨0, 0⟩, ⟨3, 0⟩], [], true, false⟩
    (by decide) (by decide) 1 (by decide) (by decide) (by decide)
  have heq : tokensOf (lexRun (str2bytes "(a)") 14) =
      [⟨.FileStart, false, 0, 0⟩, ⟨.LeftParen, true, 3, 0⟩,
        ⟨.Identifier, false, 0, 1⟩, ⟨.RightParen, false, 1, 2⟩,
        ⟨.FileEnd, true, 0, 3⟩] := by decide
  rw [heq]
  exact hres

/-! ## Claim C10: column computation -/

theorem flSearch_ok (lines : List Line) (position : Nat) : ∀ (fuel left right : Nat),
    left ≤ right → right - left < fuel →
    ∃ r, flSearch lines position fuel left right = .ok r ∧ left ≤ r ∧ r ≤ right := by
  intro fuel
  induction fuel with
  | zero => intro left right hlr hgap; omega
  | succ n ih =>
    intro left right hlr hgap
    unfold flSearch
    split
    · next hlt =>
      dsimp only
      split
      · obtain ⟨r, hr, h1, h2⟩ := ih ((left + right) / 2 + 1) right (by omega) (by omega)
        exact ⟨r, hr, by omega, h2⟩
      · obtain ⟨r, hr, h1, h2⟩ := ih left ((left + right) / 2) (by omega) (by omega)
        exact ⟨r, hr, h1, by omega⟩
    · exact ⟨left, rfl, Nat.le_refl _, hlr⟩

theorem flSearch_pos (lines : List Line) (position : Nat)
    (h0 : (lines.getD 0 ⟨0, 0⟩).start ≤ position) : ∀ (fuel right : Nat),
    0 < right → right < fuel →
    ∃ r, flSearch lines position fuel 0 right = .ok r ∧ 1 ≤ r ∧ r ≤ right := by
  intro fuel
  induction fuel with
  | zero => intro right h1 h2; omega
  | succ n ih =>
    intro right hr hgap
    unfold flSearch
    rw [if_pos hr]
    dsimp only
    split
    · obtain ⟨r, hrr, ha, hb⟩ :=
        flSearch_ok lines position n ((0 + right) / 2 + 1) right (by omega) (by omega)
      exact ⟨r, hrr, by omega, hb⟩
    · next hcmp =>
      have hmid_pos : 0 < (0 + right) / 2 := by
        rcases Nat.eq_zero_or_pos ((0 + right) / 2) with hz | hp
        · rw [hz] at hcmp
          exact absurd h0 hcmp
        · exact hp
      obtain ⟨r, hrr, ha, hb⟩ := ih ((0 + right) / 2) hmid_pos (by omega)
      exact ⟨r, hrr, ha, by omega⟩

theorem findLineIndex_ok (tt : LexOutput) (position : Nat)
    (hlen : 0 < tt.lines.length)
    (h0 : (tt.lines.getD 0 ⟨0, 0⟩).start ≤ position) :
    ∃ li, findLineIndex tt position = .ok li ∧ li < tt.lines.length := by
  obtain ⟨r, hr, h1, h2⟩ := flSearch_pos tt.lines position h0
    (tt.lines.length + 1) tt.lines.length hlen (by omega)
  unfold findLineIndex
  rw [hr]
  simp only [Bind.bind, Except.bind]
  rw [if_neg (by omega : ¬ r = 0)]
  refine ⟨_, rfl, ?_⟩
  split
  · omega
  · omega

/-- C10: get_column_number returns the token's start offset plus the located
line's start offset plus one (32-bit): the line start is added, not
subtracted.  The line is the one computed by find_line_index, whose binary
search succeeds and stays within the line arena whenever the line list is
nonempty and its first start is at or below the position. -/
theorem c10_column_adds_line_start (out : LexOutput) (idx : Nat) (t : Token)
    (ht : out.tokens.get? idx = some t)
    (hlen : 0 < out.lines.length)
    (h0 : (out.lines.getD 0 ⟨0, 0⟩).start ≤ t.start) :
    ∃ li, findLineIndex out t.start = .ok li ∧ li < out.lines.length ∧
      getColumnNumber out idx =
        .ok ((t.start + (out.lines.getD li ⟨0, 0⟩).start + 1) % 2 ^ 32) := by
  obtain ⟨li, hli, hlt⟩ := findLineIndex_ok out t.start hlen h0
  refine ⟨li, hli, hlt, ?_⟩
  unfold getColumnNumber tokenGet
  rw [ht]
  simp only [Bind.bind, Except.bind]
  rw [hli]
  rfl

theorem c10_column_adds_line_start_witness :
    (⟨[⟨.FileStart, false, 0, 0⟩, ⟨.Identifier, true, 0, 0⟩,
        ⟨.Identifier, true, 0, 2⟩, ⟨.FileEnd, true, 0, 3⟩], [],
        [⟨0, 0⟩, ⟨2, 0⟩, ⟨3, 0⟩], [], true, false⟩ : LexOutput).tokens.get? 2 =
      some ⟨.Identifier, true, 0, 2⟩ ∧
    lex (str2bytes "a\nb") = .ok ⟨[⟨.FileStart, false, 0, 0⟩,
      ⟨.Identifier, true, 0, 0⟩, ⟨.Identifier, true, 0, 2⟩,
      ⟨.FileEnd, true, 0, 3⟩], [], [⟨0, 0⟩, ⟨2, 0⟩, ⟨3, 0⟩], [], true, false⟩ ∧
    (∃ li, findLineIndex ⟨[⟨.FileStart, false, 0, 0⟩, ⟨.Identifier, true, 0, 0⟩,
        ⟨.Identifier, true, 0, 2⟩, ⟨.FileEnd, true, 0, 3⟩], [],
        [⟨0, 0⟩, ⟨2, 0⟩, ⟨3, 0⟩], [], true, false⟩ 2 = .ok li ∧
      li < 3 ∧
      getColumnNumber ⟨[⟨.FileStart, false, 0, 0⟩, ⟨.Identifier, true, 0, 0⟩,
        ⟨.Identifier, true, 0, 2⟩, ⟨.FileEnd, true, 0, 3⟩], [],
        [⟨0, 0⟩, ⟨2, 0⟩, ⟨3, 0⟩], [], true, false⟩ 2 =
        .ok ((2 + ((⟨[⟨.FileStart, false, 0, 0⟩, ⟨.Identifier, true, 0, 0⟩,
          ⟨.Identifier, true, 0, 2⟩, ⟨.FileEnd, true, 0, 3⟩], [],
          [⟨0, 0⟩, ⟨2, 0⟩, ⟨3, 0⟩], [], true, false⟩ : LexOutput).lines.getD li
            ⟨0, 0⟩).start + 1) % 2 ^ 32)) ∧
    getColumnNumber ⟨[⟨.FileStart, false, 0, 0⟩, ⟨.Identifier, true, 0, 0⟩,
      ⟨.Identifier, true, 0, 2⟩, ⟨.FileEnd, true, 0, 3⟩], [],
      [⟨0, 0⟩, ⟨2, 0⟩, ⟨3, 0⟩], [], true, false⟩ 2 = .ok 5 := by
  refine ⟨by decide, by decide, ?_, by decide⟩
  have hres := c10_column_adds_line_start
    ⟨[⟨.FileStart, false, 0, 0⟩, ⟨.Identifier, true, 0, 0⟩,
      ⟨.Identifier, true, 0, 2⟩, ⟨.FileEnd, true, 0, 3⟩], [],
      [⟨0, 0⟩, ⟨2, 0⟩, ⟨3, 0⟩], [], true, false⟩ 2 ⟨.Identifier, true, 0, 2⟩
    (by decide) (by decide) (by decide)
  exact hres

end Gobo
